import Mathlib

/-!
# Messaging: record codec, dispatchers and senders

A shallow embedding of `messaging/tinygo/messaging.go`: the four record
shapes with their `Encode` / `Decode…` functions, the two receivers'
`Dispatch`, and the senders.

Go strings and byte slices are lists of bytes.  A Go `(T, error)` result is an
`Except Error T`; a bare `error` result is an `Option Error` (`none` is `nil`).
Handlers and transports are caller-supplied and may have effects, so they are
functions on an explicit state that every call threads through.
-/

namespace messaging

/-! ## Bytes, strings, errors -/

/-- One byte of a buffer. -/
abbrev Byte := Fin 256

/-- A Go `string`: an immutable sequence of bytes. -/
abbrev GoString := List Byte

/-- The byte conversion `uint8(n)`. -/
def byte (n : Nat) : Byte := ⟨n % 256, Nat.mod_lt _ (by decide)⟩

/-- The bytes of a string literal of the source (all literals are ASCII). -/
def ascii (s : String) : GoString := s.data.map (fun c => byte c.toNat)

/-- Go `error` values: a read error of the codec, an `actor.RpcError`, or an
error made by a handler or a transport. -/
inductive Error where
  | read (msg : String)
  | rpc (kind : GoString) (msg : GoString)
  | app (msg : String)
  deriving DecidableEq, Repr

/-- Results of fallible calls can be compared. -/
instance instDecidableEqExcept {ε α : Type} [DecidableEq ε] [DecidableEq α] :
    DecidableEq (Except ε α)
  | .ok a, .ok b =>
    if h : a = b then isTrue (by rw [h]) else isFalse (fun h' => h (Except.ok.inj h'))
  | .error a, .error b =>
    if h : a = b then isTrue (by rw [h]) else isFalse (fun h' => h (Except.error.inj h'))
  | .ok _, .error _ => isFalse (fun h' => Except.noConfusion h')
  | .error _, .ok _ => isFalse (fun h' => Except.noConfusion h')

/-- Modelled from the spec: the error the missing msgpack reader gives when the
byte stream is truncated or a length exceeds the remaining bytes. -/
def errEOF : Error := Error.read "unexpected end of input"

/-- Modelled from the spec: the error the missing msgpack reader gives on a type
tag it does not expect. -/
def errBadTag : Error := Error.read "bad prefix"

/-! ## The wire format

The msgpack package (`github.com/wasmcloud/tinygo-msgpack`) is imported by the
source and is not part of it.  Its byte layout follows the MessagePack format
for the values the specification lists: map header, string, byte sequence,
fixed-width unsigned 32-bit integer, nil. -/

/-- Big-endian value of a byte sequence. -/
def beNat (bs : List Byte) : Nat := bs.foldl (fun a b => a * 256 + b.val) 0

/-- The `k` low-order bytes of `n`, big-endian. -/
def natBE : Nat → Nat → List Byte
  | 0, _ => []
  | k + 1, n => natBE k (n / 256) ++ [byte n]

/-- Modelled from the spec: wire form of the nil marker (msgpack package missing). -/
def nilBytes : List Byte := [byte 0xc0]

/-- Modelled from the spec: wire form of a map header declaring `n` entries
(msgpack package missing). -/
def mapSizeBytes (n : Nat) : List Byte :=
  if n < 16 then [byte (0x80 + n)]
  else if n ≤ 0xffff then byte 0xde :: natBE 2 n
  else byte 0xdf :: natBE 4 n

/-- Modelled from the spec: length header of a string of `n` bytes (msgpack
package missing). -/
def strHeader (n : Nat) : List Byte :=
  if n < 32 then [byte (0xa0 + n)]
  else if n ≤ 0xff then byte 0xd9 :: natBE 1 n
  else if n ≤ 0xffff then byte 0xda :: natBE 2 n
  else byte 0xdb :: natBE 4 n

/-- Modelled from the spec: wire form of a string, length-prefixed; the length is
converted with `uint32(len(value))` (msgpack package missing). -/
def strBytes (s : GoString) : List Byte := strHeader (s.length % 2 ^ 32) ++ s

/-- Modelled from the spec: length header of a byte sequence of `n` bytes
(msgpack package missing). -/
def binHeader (n : Nat) : List Byte :=
  if n ≤ 0xff then byte 0xc4 :: natBE 1 n
  else if n ≤ 0xffff then byte 0xc5 :: natBE 2 n
  else byte 0xc6 :: natBE 4 n

/-- Modelled from the spec: wire form of a byte sequence, with an explicit
length prefix (msgpack package missing). -/
def binBytes (b : List Byte) : List Byte := binHeader (b.length % 2 ^ 32) ++ b

/-- Modelled from the spec: wire form of an unsigned 32-bit integer, fixed width
(msgpack package missing). -/
def u32Bytes (n : Nat) : List Byte := byte 0xce :: natBE 4 n

/-! ## Writers: the encoder and the sizer -/

/-- Modelled from the spec: the `msgpack.Writer` interface, as far as the source
calls it; `ω` is the state of the implementation. -/
structure Writer (ω : Type) where
  WriteMapSize : Nat → ω → ω
  WriteString : GoString → ω → ω
  WriteByteArray : List Byte → ω → ω
  WriteUint32 : Nat → ω → ω

/-- Modelled from the spec: `msgpack.Encoder`, which writes into a buffer of
fixed size at a moving offset. -/
structure Encoder where
  buffer : List Byte
  byteOffset : Nat
  deriving DecidableEq, Repr

/-- Modelled from the spec: `msgpack.NewEncoder(buf)`. -/
def NewEncoder (buffer : List Byte) : Encoder := ⟨buffer, 0⟩

/-- Modelled from the spec: the encoder copies `bs` into its buffer at the
offset (never beyond the buffer's end) and advances the offset. -/
def Encoder.SetBytes (bs : List Byte) (e : Encoder) : Encoder :=
  { buffer := (e.buffer.take e.byteOffset ++ bs
                ++ e.buffer.drop (e.byteOffset + bs.length)).take e.buffer.length,
    byteOffset := e.byteOffset + bs.length }

/-- Modelled from the spec: `msgpack.Encoder` as a `msgpack.Writer`. -/
def encoderWriter : Writer Encoder where
  WriteMapSize n := Encoder.SetBytes (mapSizeBytes n)
  WriteString s := Encoder.SetBytes (strBytes s)
  WriteByteArray b := Encoder.SetBytes (binBytes b)
  WriteUint32 n := Encoder.SetBytes (u32Bytes n)

/-- Modelled from the spec: `msgpack.Sizer`, the writer of the sizing pass; it
only accumulates the length. -/
structure Sizer where
  length : Nat
  deriving DecidableEq, Repr

/-- Modelled from the spec: `Sizer.Len()`. -/
def Sizer.Len (s : Sizer) : Nat := s.length

/-- Modelled from the spec: what the sizer adds for the length header of a
string of `n` bytes. -/
def strHeaderSize (n : Nat) : Nat :=
  if n < 32 then 1 else if n ≤ 0xff then 2 else if n ≤ 0xffff then 3 else 5

/-- Modelled from the spec: what the sizer adds for the length header of a byte
sequence of `n` bytes. -/
def binHeaderSize (n : Nat) : Nat :=
  if n ≤ 0xff then 2 else if n ≤ 0xffff then 3 else 5

/-- Modelled from the spec: `msgpack.Sizer` as a `msgpack.Writer`. -/
def sizerWriter : Writer Sizer where
  WriteMapSize n s := ⟨s.length + (if n < 16 then 1 else if n ≤ 0xffff then 3 else 5)⟩
  WriteString v s := ⟨s.length + strHeaderSize (v.length % 2 ^ 32) + v.length⟩
  WriteByteArray b s := ⟨s.length + binHeaderSize (b.length % 2 ^ 32) + b.length⟩
  WriteUint32 _ s := ⟨s.length + 5⟩

/-! ## The decoder -/

/-- Modelled from the spec: `msgpack.Decoder`, a read position in a buffer; the
model keeps the bytes not yet read. -/
abbrev Decoder := List Byte

/-- Modelled from the spec: `msgpack.NewDecoder(buf)`. -/
def NewDecoder (buffer : List Byte) : Decoder := buffer

/-- Modelled from the spec: read one byte. -/
def readUint8 : Decoder → Except Error (Nat × Decoder)
  | [] => .error errEOF
  | b :: d => .ok (b.val, d)

/-- Modelled from the spec: read a big-endian unsigned integer of `w` bytes. -/
def readBE (w : Nat) (d : Decoder) : Except Error (Nat × Decoder) :=
  if d.length < w then .error errEOF else .ok (beNat (d.take w), d.drop w)

/-- Modelled from the spec: take the next `n` bytes; fails when the length
exceeds the remaining bytes. -/
def getBytes (n : Nat) (d : Decoder) : Except Error (List Byte × Decoder) :=
  if d.length < n then .error errEOF else .ok (d.take n, d.drop n)

/-- Modelled from the spec: `Decoder.IsNextNil`; a nil marker is consumed, any
other byte is left in place. -/
def IsNextNil : Decoder → Except Error (Bool × Decoder)
  | [] => .error errEOF
  | b :: d => if b.val = 0xc0 then .ok (true, d) else .ok (false, b :: d)

/-- Modelled from the spec: `Decoder.ReadMapSize`. -/
def ReadMapSize (d : Decoder) : Except Error (Nat × Decoder) :=
  match readUint8 d with
  | .error e => .error e
  | .ok (lead, d) =>
    if 0x80 ≤ lead ∧ lead < 0x90 then .ok (lead - 0x80, d)
    else if lead = 0xde then readBE 2 d
    else if lead = 0xdf then readBE 4 d
    else .error errBadTag

/-- Modelled from the spec: the length header of a string. -/
def readStringLength (d : Decoder) : Except Error (Nat × Decoder) :=
  match readUint8 d with
  | .error e => .error e
  | .ok (lead, d) =>
    if 0xa0 ≤ lead ∧ lead < 0xc0 then .ok (lead - 0xa0, d)
    else if lead = 0xd9 then readBE 1 d
    else if lead = 0xda then readBE 2 d
    else if lead = 0xdb then readBE 4 d
    else .error errBadTag

/-- Modelled from the spec: `Decoder.ReadString`. -/
def ReadString (d : Decoder) : Except Error (GoString × Decoder) :=
  match readStringLength d with
  | .error e => .error e
  | .ok (n, d) => getBytes n d

/-- Modelled from the spec: the length header of a byte sequence. -/
def readBinLength (d : Decoder) : Except Error (Nat × Decoder) :=
  match readUint8 d with
  | .error e => .error e
  | .ok (lead, d) =>
    if lead = 0xc4 then readBE 1 d
    else if lead = 0xc5 then readBE 2 d
    else if lead = 0xc6 then readBE 4 d
    else .error errBadTag

/-- Modelled from the spec: `Decoder.ReadByteArray`. -/
def ReadByteArray (d : Decoder) : Except Error (List Byte × Decoder) :=
  match readBinLength d with
  | .error e => .error e
  | .ok (n, d) => getBytes n d

/-- Modelled from the spec: `Decoder.ReadUint32`, the fixed-width form. -/
def ReadUint32 (d : Decoder) : Except Error (Nat × Decoder) :=
  match readUint8 d with
  | .error e => .error e
  | .ok (lead, d) => if lead = 0xce then readBE 4 d else .error errBadTag

/-- Modelled from the spec: `Decoder.Skip`, which consumes and discards one
encoded value of unknown type (string, byte sequence, unsigned 32-bit integer or
nil); it fails on a truncated stream and on an unrecognized type tag. -/
def Skip (d : Decoder) : Except Error Decoder :=
  match readUint8 d with
  | .error e => .error e
  | .ok (lead, d) =>
    if lead = 0xc0 then .ok d
    else if lead = 0xce then
      match getBytes 4 d with
      | .error e => .error e
      | .ok (_, d) => .ok d
    else
      let len : Except Error (Nat × Decoder) :=
        if 0xa0 ≤ lead ∧ lead < 0xc0 then .ok (lead - 0xa0, d)
        else if lead = 0xd9 ∨ lead = 0xc4 then readBE 1 d
        else if lead = 0xda ∨ lead = 0xc5 then readBE 2 d
        else if lead = 0xdb ∨ lead = 0xc6 then readBE 4 d
        else .error errBadTag
      match len with
      | .error e => .error e
      | .ok (n, d) =>
        match getBytes n d with
        | .error e => .error e
        | .ok (_, d) => .ok d

/-! ## The four records -/

/-- A message to be published. -/
structure PubMessage where
  Subject : GoString
  ReplyTo : GoString
  Body : List Byte
  deriving DecidableEq, Repr

/-- The zero value `var val PubMessage`. -/
def PubMessage.zero : PubMessage := ⟨[], [], []⟩

/-- Encode serializes a PubMessage using msgpack (it always returns a nil error). -/
def PubMessage.Encode {ω : Type} (o : PubMessage) (encoder : Writer ω) (st : ω) :
    Option Error × ω :=
  let st := encoder.WriteMapSize 3 st
  let st := encoder.WriteString (ascii "subject") st
  let st := encoder.WriteString o.Subject st
  let st := encoder.WriteString (ascii "replyTo") st
  let st := encoder.WriteString o.ReplyTo st
  let st := encoder.WriteString (ascii "body") st
  let st := encoder.WriteByteArray o.Body st
  (none, st)

/-- The loop `for i := uint32(0); i < size; i++` of `DecodePubMessage`, with `n`
iterations left. -/
def DecodePubMessage.loop : Nat → PubMessage → Decoder → Except Error (PubMessage × Decoder)
  | 0, val, d => .ok (val, d)
  | n + 1, val, d =>
    match ReadString d with
    | .error err => .error err
    | .ok (field, d) =>
      if field = ascii "subject" then
        match ReadString d with
        | .error err => .error err
        | .ok (v, d) => DecodePubMessage.loop n { val with Subject := v } d
      else if field = ascii "replyTo" then
        match ReadString d with
        | .error err => .error err
        | .ok (v, d) => DecodePubMessage.loop n { val with ReplyTo := v } d
      else if field = ascii "body" then
        match ReadByteArray d with
        | .error err => .error err
        | .ok (v, d) => DecodePubMessage.loop n { val with Body := v } d
      else
        match Skip d with
        | .error err => .error err
        | .ok d => DecodePubMessage.loop n val d

/-- Decode deserializes a PubMessage using msgpack; the result carries the decoder
after the call.  On an error the source also returns the partly filled record,
which none of its callers reads; the model returns the error alone. -/
def DecodePubMessage (d : Decoder) : Except Error (PubMessage × Decoder) :=
  match IsNextNil d with
  | .error err => .error err
  | .ok (true, d) => .ok (PubMessage.zero, d)
  | .ok (false, d) =>
    match ReadMapSize d with
    | .error err => .error err
    | .ok (size, d) => DecodePubMessage.loop size PubMessage.zero d

/-- Reply received from a Request operation. -/
structure ReplyMessage where
  Subject : GoString
  ReplyTo : GoString
  Body : List Byte
  deriving DecidableEq, Repr

/-- The zero value `var val ReplyMessage`. -/
def ReplyMessage.zero : ReplyMessage := ⟨[], [], []⟩

/-- Encode serializes a ReplyMessage using msgpack (it always returns a nil error). -/
def ReplyMessage.Encode {ω : Type} (o : ReplyMessage) (encoder : Writer ω) (st : ω) :
    Option Error × ω :=
  let st := encoder.WriteMapSize 3 st
  let st := encoder.WriteString (ascii "subject") st
  let st := encoder.WriteString o.Subject st
  let st := encoder.WriteString (ascii "replyTo") st
  let st := encoder.WriteString o.ReplyTo st
  let st := encoder.WriteString (ascii "body") st
  let st := encoder.WriteByteArray o.Body st
  (none, st)

/-- The loop `for i := uint32(0); i < size; i++` of `DecodeReplyMessage`, with `n`
iterations left. -/
def DecodeReplyMessage.loop : Nat → ReplyMessage → Decoder → Except Error (ReplyMessage × Decoder)
  | 0, val, d => .ok (val, d)
  | n + 1, val, d =>
    match ReadString d with
    | .error err => .error err
    | .ok (field, d) =>
      if field = ascii "subject" then
        match ReadString d with
        | .error err => .error err
        | .ok (v, d) => DecodeReplyMessage.loop n { val with Subject := v } d
      else if field = ascii "replyTo" then
        match ReadString d with
        | .error err => .error err
        | .ok (v, d) => DecodeReplyMessage.loop n { val with ReplyTo := v } d
      else if field = ascii "body" then
        match ReadByteArray d with
        | .error err => .error err
        | .ok (v, d) => DecodeReplyMessage.loop n { val with Body := v } d
      else
        match Skip d with
        | .error err => .error err
        | .ok d => DecodeReplyMessage.loop n val d

/-- Decode deserializes a ReplyMessage using msgpack; the result carries the decoder
after the call.  On an error the source also returns the partly filled record,
which none of its callers reads; the model returns the error alone. -/
def DecodeReplyMessage (d : Decoder) : Except Error (ReplyMessage × Decoder) :=
  match IsNextNil d with
  | .error err => .error err
  | .ok (true, d) => .ok (ReplyMessage.zero, d)
  | .ok (false, d) =>
    match ReadMapSize d with
    | .error err => .error err
    | .ok (size, d) => DecodeReplyMessage.loop size ReplyMessage.zero d

/-- Message sent as part of a request, with timeout. -/
structure RequestMessage where
  Subject : GoString
  Body : List Byte
  TimeoutMs : Nat
  deriving DecidableEq, Repr

/-- The zero value `var val RequestMessage`. -/
def RequestMessage.zero : RequestMessage := ⟨[], [], 0⟩

/-- Encode serializes a RequestMessage using msgpack (it always returns a nil error). -/
def RequestMessage.Encode {ω : Type} (o : RequestMessage) (encoder : Writer ω) (st : ω) :
    Option Error × ω :=
  let st := encoder.WriteMapSize 3 st
  let st := encoder.WriteString (ascii "subject") st
  let st := encoder.WriteString o.Subject st
  let st := encoder.WriteString (ascii "body") st
  let st := encoder.WriteByteArray o.Body st
  let st := encoder.WriteString (ascii "timeoutMs") st
  let st := encoder.WriteUint32 o.TimeoutMs st
  (none, st)

/-- The loop `for i := uint32(0); i < size; i++` of `DecodeRequestMessage`, with
`n` iterations left. -/
def DecodeRequestMessage.loop :
    Nat → RequestMessage → Decoder → Except Error (RequestMessage × Decoder)
  | 0, val, d => .ok (val, d)
  | n + 1, val, d =>
    match ReadString d with
    | .error err => .error err
    | .ok (field, d) =>
      if field = ascii "subject" then
        match ReadString d with
        | .error err => .error err
        | .ok (v, d) => DecodeRequestMessage.loop n { val with Subject := v } d
      else if field = ascii "body" then
        match ReadByteArray d with
        | .error err => .error err
        | .ok (v, d) => DecodeRequestMessage.loop n { val with Body := v } d
      else if field = ascii "timeoutMs" then
        match ReadUint32 d with
        | .error err => .error err
        | .ok (v, d) => DecodeRequestMessage.loop n { val with TimeoutMs := v } d
      else
        match Skip d with
        | .error err => .error err
        | .ok d => DecodeRequestMessage.loop n val d

/-- Decode deserializes a RequestMessage using msgpack; the result carries the decoder
after the call.  On an error the source also returns the partly filled record,
which none of its callers reads; the model returns the error alone. -/
def DecodeRequestMessage (d : Decoder) : Except Error (RequestMessage × Decoder) :=
  match IsNextNil d with
  | .error err => .error err
  | .ok (true, d) => .ok (RequestMessage.zero, d)
  | .ok (false, d) =>
    match ReadMapSize d with
    | .error err => .error err
    | .ok (size, d) => DecodeRequestMessage.loop size RequestMessage.zero d

/-- Message received as part of a subscription. -/
structure SubMessage where
  Subject : GoString
  ReplyTo : GoString
  Body : List Byte
  deriving DecidableEq, Repr

/-- The zero value `var val SubMessage`. -/
def SubMessage.zero : SubMessage := ⟨[], [], []⟩

/-- Encode serializes a SubMessage using msgpack (it always returns a nil error). -/
def SubMessage.Encode {ω : Type} (o : SubMessage) (encoder : Writer ω) (st : ω) :
    Option Error × ω :=
  let st := encoder.WriteMapSize 3 st
  let st := encoder.WriteString (ascii "subject") st
  let st := encoder.WriteString o.Subject st
  let st := encoder.WriteString (ascii "replyTo") st
  let st := encoder.WriteString o.ReplyTo st
  let st := encoder.WriteString (ascii "body") st
  let st := encoder.WriteByteArray o.Body st
  (none, st)

/-- The loop `for i := uint32(0); i < size; i++` of `DecodeSubMessage`, with `n`
iterations left. -/
def DecodeSubMessage.loop : Nat → SubMessage → Decoder → Except Error (SubMessage × Decoder)
  | 0, val, d => .ok (val, d)
  | n + 1, val, d =>
    match ReadString d with
    | .error err => .error err
    | .ok (field, d) =>
      if field = ascii "subject" then
        match ReadString d with
        | .error err => .error err
        | .ok (v, d) => DecodeSubMessage.loop n { val with Subject := v } d
      else if field = ascii "replyTo" then
        match ReadString d with
        | .error err => .error err
        | .ok (v, d) => DecodeSubMessage.loop n { val with ReplyTo := v } d
      else if field = ascii "body" then
        match ReadByteArray d with
        | .error err => .error err
        | .ok (v, d) => DecodeSubMessage.loop n { val with Body := v } d
      else
        match Skip d with
        | .error err => .error err
        | .ok d => DecodeSubMessage.loop n val d

/-- Decode deserializes a SubMessage using msgpack; the result carries the decoder
after the call.  On an error the source also returns the partly filled record,
which none of its callers reads; the model returns the error alone. -/
def DecodeSubMessage (d : Decoder) : Except Error (SubMessage × Decoder) :=
  match IsNextNil d with
  | .error err => .error err
  | .ok (true, d) => .ok (SubMessage.zero, d)
  | .ok (false, d) =>
    match ReadMapSize d with
    | .error err => .error err
    | .ok (size, d) => DecodeSubMessage.loop size SubMessage.zero d

/-! ## The actor runtime, as far as the source uses it -/

/-- Modelled from the spec: `actor.Context`, the ambient call context, opaque to
this layer. -/
structure Context where
  id : Nat
  deriving DecidableEq, Repr

/-- Modelled from the spec: `actor.Message`, a method name and argument bytes. -/
structure Message where
  Method : GoString
  Arg : List Byte
  deriving DecidableEq, Repr

/-- Modelled from the spec: `actor.NewRpcError(kind, msg)`. -/
def NewRpcError (kind msg : GoString) : Error := Error.rpc kind msg

/-- Modelled from the spec: `actor.Transport`; `Send` returns response bytes and
an error, and may change the transport's state `τ`. -/
structure Transport (τ : Type) where
  Send : Context → Message → τ → (List Byte × Option Error) × τ

/-! ## MessageSubscriber -/

/-- The MessageSubscriber interface: an actor interface that receives messages
sent by the Messaging provider.  `σ` is the state of the implementation. -/
structure MessageSubscriber (σ : Type) where
  HandleMessage : Context → SubMessage → σ → Option Error × σ

/-- MessageSubscriberContractId returns the capability contract id for this interface. -/
def MessageSubscriberContractId : GoString := ascii "wasmcloud:messaging"

/-- Dispatch of MessageSubscriberReceiver: `(nil, err)` is `.error err`, `(&msg, nil)`
is `.ok msg`; the second component is the service's state after the call. -/
def MessageSubscriberReceiver.Dispatch {σ : Type} (ctx : Context) (svc : MessageSubscriber σ)
    (message : Message) (s : σ) : Except Error Message × σ :=
  if message.Method = ascii "HandleMessage" then
    let d := NewDecoder message.Arg
    match DecodeSubMessage d with
    | .error err_ => (.error err_, s)
    | .ok (value, _) =>
      match svc.HandleMessage ctx value s with
      | (some err, s) => (.error err, s)
      | (none, s) =>
        let buf : List Byte := []
        (.ok { Method := ascii "MessageSubscriber.HandleMessage", Arg := buf }, s)
  else
    (.error (NewRpcError (ascii "MethodNotHandled") (ascii "MessageSubscriber." ++ message.Method)), s)

/-- MessageSubscriberSender sends messages to a MessageSubscriber service. -/
structure MessageSubscriberSender (τ : Type) where
  transport : Transport τ

/-- The sender's HandleMessage: two-pass encode, then `Send`; the second component
is the transport's state after the call. -/
def MessageSubscriberSender.HandleMessage {τ : Type} (s : MessageSubscriberSender τ)
    (ctx : Context) (arg : SubMessage) (t : τ) : Option Error × τ :=
  let sizer : Sizer := ⟨0⟩
  let sizer := (arg.Encode sizerWriter sizer).2
  let buf := List.replicate sizer.Len (0 : Byte)
  let encoder := NewEncoder buf
  let buf := (arg.Encode encoderWriter encoder).2.buffer
  let t := (s.transport.Send ctx { Method := ascii "MessageSubscriber.HandleMessage", Arg := buf } t).2
  (none, t)

/-! ## Messaging -/

/-- The Messaging interface: a service that can deliver messages.  `Request`
returns a `*ReplyMessage` (which may be nil) and an error. -/
structure Messaging (σ : Type) where
  Publish : Context → PubMessage → σ → Option Error × σ
  Request : Context → RequestMessage → σ → (Option ReplyMessage × Option Error) × σ

/-- MessagingContractId returns the capability contract id for this interface. -/
def MessagingContractId : GoString := ascii "wasmcloud:messaging"

/-- Dispatch of MessagingReceiver.  `some (.error err)` is the return `(nil, err)`,
`some (.ok msg)` is `(&msg, nil)`, and `none` is the run-time panic of
`resp.Encode` on a nil `resp`; the second component is the service's state after
the call. -/
def MessagingReceiver.Dispatch {σ : Type} (ctx : Context) (svc : Messaging σ)
    (message : Message) (s : σ) : Option (Except Error Message) × σ :=
  if message.Method = ascii "Publish" then
    let d := NewDecoder message.Arg
    match DecodePubMessage d with
    | .error err_ => (some (.error err_), s)
    | .ok (value, _) =>
      match svc.Publish ctx value s with
      | (some err, s) => (some (.error err), s)
      | (none, s) =>
        let buf : List Byte := []
        (some (.ok { Method := ascii "Messaging.Publish", Arg := buf }), s)
  else if message.Method = ascii "Request" then
    let d := NewDecoder message.Arg
    match DecodeRequestMessage d with
    | .error err_ => (some (.error err_), s)
    | .ok (value, _) =>
      match svc.Request ctx value s with
      | ((_, some err), s) => (some (.error err), s)
      | ((none, none), s) => (none, s)
      | ((some resp, none), s) =>
        let sizer : Sizer := ⟨0⟩
        let sizer := (resp.Encode sizerWriter sizer).2
        let buf := List.replicate sizer.Len (0 : Byte)
        let encoder := NewEncoder buf
        let buf := (resp.Encode encoderWriter encoder).2.buffer
        (some (.ok { Method := ascii "Messaging.Request", Arg := buf }), s)
  else
    (some (.error (NewRpcError (ascii "MethodNotHandled") (ascii "Messaging." ++ message.Method))), s)

/-- MessagingSender sends messages to a Messaging service. -/
structure MessagingSender (τ : Type) where
  transport : Transport τ

/-- Publish - send a message: two-pass encode, then `Send`, whose results are
dropped. -/
def MessagingSender.Publish {τ : Type} (s : MessagingSender τ)
    (ctx : Context) (arg : PubMessage) (t : τ) : Option Error × τ :=
  let sizer : Sizer := ⟨0⟩
  let sizer := (arg.Encode sizerWriter sizer).2
  let buf := List.replicate sizer.Len (0 : Byte)
  let encoder := NewEncoder buf
  let buf := (arg.Encode encoderWriter encoder).2.buffer
  let t := (s.transport.Send ctx { Method := ascii "Messaging.Publish", Arg := buf } t).2
  (none, t)

/-- Request - send a message in a request/reply pattern: two-pass encode, `Send`
(its error is dropped), then decode of the returned bytes. -/
def MessagingSender.Request {τ : Type} (s : MessagingSender τ)
    (ctx : Context) (arg : RequestMessage) (t : τ) : Except Error ReplyMessage × τ :=
  let sizer : Sizer := ⟨0⟩
  let sizer := (arg.Encode sizerWriter sizer).2
  let buf := List.replicate sizer.Len (0 : Byte)
  let encoder := NewEncoder buf
  let buf := (arg.Encode encoderWriter encoder).2.buffer
  match s.transport.Send ctx { Method := ascii "Messaging.Request", Arg := buf } t with
  | ((out_buf, _), t) =>
    let d := NewDecoder out_buf
    match DecodeReplyMessage d with
    | .error err_ => (.error err_, t)
    | .ok (resp, _) => (.ok resp, t)

/-! ## Bytes of a record, validity -/

/-- The buffer the two-pass idiom of the senders builds for a PubMessage: size
with the Sizer, allocate, write with the Encoder. -/
def PubMessage.bytes (o : PubMessage) : List Byte :=
  ((o.Encode encoderWriter
      (NewEncoder (List.replicate (o.Encode sizerWriter ⟨0⟩).2.Len (0 : Byte)))).2).buffer

/-- The buffer the two-pass idiom builds for a ReplyMessage. -/
def ReplyMessage.bytes (o : ReplyMessage) : List Byte :=
  ((o.Encode encoderWriter
      (NewEncoder (List.replicate (o.Encode sizerWriter ⟨0⟩).2.Len (0 : Byte)))).2).buffer

/-- The buffer the two-pass idiom builds for a RequestMessage. -/
def RequestMessage.bytes (o : RequestMessage) : List Byte :=
  ((o.Encode encoderWriter
      (NewEncoder (List.replicate (o.Encode sizerWriter ⟨0⟩).2.Len (0 : Byte)))).2).buffer

/-- The buffer the two-pass idiom builds for a SubMessage. -/
def SubMessage.bytes (o : SubMessage) : List Byte :=
  ((o.Encode encoderWriter
      (NewEncoder (List.replicate (o.Encode sizerWriter ⟨0⟩).2.Len (0 : Byte)))).2).buffer

/-- A record Go can hold on the 32-bit targets of the source: every length fits
a `uint32`. -/
def PubMessage.Valid (o : PubMessage) : Prop :=
  o.Subject.length < 2 ^ 32 ∧ o.ReplyTo.length < 2 ^ 32 ∧ o.Body.length < 2 ^ 32

/-- A ReplyMessage whose lengths fit a `uint32`. -/
def ReplyMessage.Valid (o : ReplyMessage) : Prop :=
  o.Subject.length < 2 ^ 32 ∧ o.ReplyTo.length < 2 ^ 32 ∧ o.Body.length < 2 ^ 32

/-- A RequestMessage whose lengths fit a `uint32` and whose TimeoutMs is a `uint32`. -/
def RequestMessage.Valid (o : RequestMessage) : Prop :=
  o.Subject.length < 2 ^ 32 ∧ o.Body.length < 2 ^ 32 ∧ o.TimeoutMs < 2 ^ 32

/-- A SubMessage whose lengths fit a `uint32`. -/
def SubMessage.Valid (o : SubMessage) : Prop :=
  o.Subject.length < 2 ^ 32 ∧ o.ReplyTo.length < 2 ^ 32 ∧ o.Body.length < 2 ^ 32

/-! ## Sample data -/

/-- The publish record of the specification's end-to-end example. -/
def samplePub : PubMessage :=
  { Subject := ascii "orders.new", ReplyTo := [], Body := [byte 1, byte 2] }

/-- A sample request record. -/
def sampleRequest : RequestMessage :=
  { Subject := ascii "orders.get", Body := [byte 7], TimeoutMs := 1500 }

/-- A sample reply record. -/
def sampleReply : ReplyMessage :=
  { Subject := ascii "orders.get", ReplyTo := ascii "inbox", Body := [byte 9, byte 8] }

/-- A sample subscription record. -/
def sampleSub : SubMessage :=
  { Subject := ascii "orders.new", ReplyTo := ascii "inbox", Body := [byte 3] }

/-! ## Values of the wire format -/

/-- Modelled from the spec: the typed values of the wire format: nil, UTF-8
string, byte sequence with length prefix, fixed-width unsigned 32-bit integer. -/
inductive Value where
  | nil
  | str (s : GoString)
  | bin (b : List Byte)
  | uint32 (n : Nat)
  deriving DecidableEq, Repr

/-- Modelled from the spec: the wire form of a value, as the writers produce it. -/
def Value.bytes : Value → List Byte
  | .nil => nilBytes
  | .str s => strBytes s
  | .bin b => binBytes b
  | .uint32 n => u32Bytes n

/-- A value whose length (or number) fits a `uint32`. -/
def Value.WellFormed : Value → Prop
  | .nil => True
  | .str s => s.length < 2 ^ 32
  | .bin b => b.length < 2 ^ 32
  | .uint32 n => n < 2 ^ 32

/-- Validity of a PubMessage can be checked. -/
instance instDecidablePubValid (o : PubMessage) : Decidable o.Valid := by
  unfold PubMessage.Valid
  infer_instance

/-- Validity of a ReplyMessage can be checked. -/
instance instDecidableReplyValid (o : ReplyMessage) : Decidable o.Valid := by
  unfold ReplyMessage.Valid
  infer_instance

/-- Validity of a RequestMessage can be checked. -/
instance instDecidableRequestValid (o : RequestMessage) : Decidable o.Valid := by
  unfold RequestMessage.Valid
  infer_instance

/-- Validity of a SubMessage can be checked. -/
instance instDecidableSubValid (o : SubMessage) : Decidable o.Valid := by
  unfold SubMessage.Valid
  infer_instance

/-- Well-formedness of a value can be checked. -/
instance instDecidableWellFormed : (v : Value) → Decidable v.WellFormed
  | .nil => isTrue trivial
  | .str s => inferInstanceAs (Decidable (s.length < 2 ^ 32))
  | .bin b => inferInstanceAs (Decidable (b.length < 2 ^ 32))
  | .uint32 n => inferInstanceAs (Decidable (n < 2 ^ 32))

/-! ## Sample services and transports -/

/-- A transport that keeps the messages handed to it, in order, and answers with
no bytes and no error. -/
def recordingTransport : Transport (List Message) where
  Send _ m log := (([], none), log ++ [m])

/-- A transport whose every Send fails with the same error and no bytes. -/
def failingTransport : Transport Unit where
  Send _ _ u := (([], some (Error.app "link down")), u)

/-- A transport whose every Send fails with an error and yet hands back a nil
marker as response bytes. -/
def failingNilTransport : Transport Unit where
  Send _ _ u := ((nilBytes, some (Error.app "link down")), u)

/-- A subscriber that counts its invocations and never fails. -/
def countingSubscriber : MessageSubscriber Nat where
  HandleMessage _ _ n := (none, n + 1)

/-- A messaging service that counts its invocations and never fails; a request
is answered with its own subject and body. -/
def countingMessaging : Messaging Nat where
  Publish _ _ n := (none, n + 1)
  Request _ q n := ((some { Subject := q.Subject, ReplyTo := [], Body := q.Body }, none), n + 1)

/-- A subscriber that counts its invocations and always fails. -/
def failingSubscriber : MessageSubscriber Nat where
  HandleMessage _ _ n := (some (Error.app "denied"), n + 1)

/-- A messaging service that counts its invocations and always fails. -/
def failingMessaging : Messaging Nat where
  Publish _ _ n := (some (Error.app "denied"), n + 1)
  Request _ _ n := ((none, some (Error.app "denied")), n + 1)

/-! ## Constructors of the senders -/

/-- NewProviderMessaging constructs a client for sending to a Messaging provider
implementing the 'wasmcloud:messaging' capability contract, with the "default"
link.  `ToProvider` is `actor.ToProvider`, which the source imports. -/
def NewProviderMessaging {τ : Type} (ToProvider : GoString → GoString → Transport τ) :
    MessagingSender τ :=
  let transport := ToProvider (ascii "wasmcloud:messaging") (ascii "default")
  { transport := transport }

/-- NewProviderMessagingLink constructs a client for sending to a Messaging
provider implementing the 'wasmcloud:messaging' capability contract, with the
specified link name.  `ToProvider` is `actor.ToProvider`. -/
def NewProviderMessagingLink {τ : Type} (ToProvider : GoString → GoString → Transport τ)
    (linkName : GoString) : MessagingSender τ :=
  let transport := ToProvider (ascii "wasmcloud:messaging") linkName
  { transport := transport }

/-- A transport whose every Send succeeds and answers with the encoded sample
reply. -/
def replyingTransport : Transport Nat where
  Send _ _ n := ((sampleReply.bytes, none), n + 1)

/-! ## A writer that records its calls -/

/-- One call of a `msgpack.Writer` method, with its argument. -/
inductive WriteCall where
  | mapSize (n : Nat)
  | string (s : GoString)
  | byteArray (b : List Byte)
  | uint32 (n : Nat)
  deriving DecidableEq, Repr

/-- A `msgpack.Writer` that keeps the calls made on it, in order. -/
def traceWriter : Writer (List WriteCall) where
  WriteMapSize n l := l ++ [WriteCall.mapSize n]
  WriteString s l := l ++ [WriteCall.string s]
  WriteByteArray b l := l ++ [WriteCall.byteArray b]
  WriteUint32 n l := l ++ [WriteCall.uint32 n]

/-! ## Encoded maps -/

/-- The kinds of typed value a field of the four records can have. -/
inductive Kind where
  | str
  | bin
  | uint32
  deriving DecidableEq, Repr

/-- Whether a value is of a kind. -/
def Value.hasKind : Value → Kind → Bool
  | .str _, .str => true
  | .bin _, .bin => true
  | .uint32 _, .uint32 => true
  | _, _ => false

/-- The field names DecodePubMessage, DecodeReplyMessage and DecodeSubMessage
recognize, with the kind of value each reads. -/
def pubSchema (name : GoString) : Option Kind :=
  if name = ascii "subject" then some Kind.str
  else if name = ascii "replyTo" then some Kind.str
  else if name = ascii "body" then some Kind.bin
  else none

/-- The field names DecodeRequestMessage recognizes, with the kind of value each
reads. -/
def requestSchema (name : GoString) : Option Kind :=
  if name = ascii "subject" then some Kind.str
  else if name = ascii "body" then some Kind.bin
  else if name = ascii "timeoutMs" then some Kind.uint32
  else none

/-- An entry a decoder can read: the name and the value fit a `uint32`, and a
name of the schema carries a value of the schema's kind. -/
def entryOk (schema : GoString → Option Kind) (e : GoString × Value) : Bool :=
  decide (e.1.length < 2 ^ 32) && decide e.2.WellFormed &&
    match schema e.1 with
    | some k => e.2.hasKind k
    | none => true

/-- A well-formed map for a schema: fewer than 2^32 entries, each readable. -/
def MapOk (schema : GoString → Option Kind) (es : List (GoString × Value)) : Prop :=
  es.length < 2 ^ 32 ∧ es.all (entryOk schema) = true

/-- Well-formedness of a map can be checked. -/
instance instDecidableMapOk (schema : GoString → Option Kind) (es : List (GoString × Value)) :
    Decidable (MapOk schema es) := by
  unfold MapOk
  infer_instance

/-- Wire form of a sequence of map entries: each name as a string, followed by
its value. -/
def entriesBytes : List (GoString × Value) → List Byte
  | [] => []
  | e :: es => strBytes e.1 ++ (e.2.bytes ++ entriesBytes es)

/-- Wire form of a map: the header declaring the number of entries, then the
entries. -/
def mapBytes (es : List (GoString × Value)) : List Byte :=
  mapSizeBytes es.length ++ entriesBytes es

/-- The value of the last entry of a map that carries the name, if there is one. -/
def lastValue (es : List (GoString × Value)) (name : GoString) : Option Value :=
  (es.reverse.find? (fun e => decide (e.1 = name))).map Prod.snd

/-- The string a value holds; empty for any other value. -/
def strOf : Value → GoString
  | .str s => s
  | _ => []

/-- The byte sequence a value holds; empty for any other value. -/
def binOf : Value → List Byte
  | .bin b => b
  | _ => []

/-- The number a value holds; 0 for any other value. -/
def u32Of : Value → Nat
  | .uint32 n => n
  | _ => 0

/-! ## Bytes and big-endian numbers -/

theorem byte_val (n : Nat) : (byte n).val = n % 256 := rfl

theorem beNat_snoc (bs : List Byte) (b : Byte) : beNat (bs ++ [b]) = beNat bs * 256 + b.val := by
  simp [beNat, List.foldl_append]

theorem length_natBE (k n : Nat) : (natBE k n).length = k := by
  induction k generalizing n with
  | zero => rfl
  | succ k ih => simp [natBE, ih]

theorem beNat_natBE (k n : Nat) : beNat (natBE k n) = n % 256 ^ k := by
  induction k generalizing n with
  | zero => simp [natBE, beNat, Nat.mod_one]
  | succ k ih =>
    rw [natBE, beNat_snoc, ih, byte_val, pow_succ', Nat.mod_mul]
    omega

/-- Cutting `e ++ t` after `k` bytes cuts inside `e`, or keeps `e` and cuts `t`. -/
theorem take_append_cases (k : Nat) (e t : List Byte) :
    (e ++ t).take k = if k < e.length then e.take k else e ++ t.take (k - e.length) := by
  rw [List.take_append_eq_append_take]
  split
  · next h => simp [Nat.sub_eq_zero_of_le (Nat.le_of_lt h)]
  · next h => rw [List.take_of_length_le (Nat.le_of_not_lt h)]

/-! ## The readers on written bytes -/

theorem readBE_short (w : Nat) (d : Decoder) (h : d.length < w) :
    readBE w d = .error errEOF := by
  simp [readBE, h]

theorem readBE_ok (w n : Nat) (t : Decoder) :
    readBE w (natBE w n ++ t) = .ok (n % 256 ^ w, t) := by
  have hl := length_natBE w n
  simp [readBE, hl, List.take_append_eq_append_take, List.drop_append_eq_append_drop,
    beNat_natBE, List.take_of_length_le, List.drop_of_length_le]

theorem getBytes_short (n : Nat) (d : Decoder) (h : d.length < n) :
    getBytes n d = .error errEOF := by
  simp [getBytes, h]

theorem getBytes_ok (s t : List Byte) : getBytes s.length (s ++ t) = .ok (s, t) := by
  simp [getBytes]

theorem readUint8_cons (b : Byte) (d : Decoder) : readUint8 (b :: d) = .ok (b.val, d) := rfl

theorem readStringLength_ok (n : Nat) (h : n < 2 ^ 32) (t : Decoder) :
    readStringLength (strHeader n ++ t) = .ok (n, t) := by
  unfold strHeader
  split_ifs with h1 h2 h3
  · have e : (0xa0 + n) % 256 = 0xa0 + n := Nat.mod_eq_of_lt (by omega)
    simp only [readStringLength, List.singleton_append, readUint8_cons, byte_val, e]
    rw [if_pos (by omega)]
    simp
  all_goals
    simp only [readStringLength, List.cons_append, readUint8_cons, byte_val, readBE_ok]
    simp
    omega

theorem readStringLength_short (n k : Nat) (h : k < (strHeader n).length) :
    readStringLength ((strHeader n).take k) = .error errEOF := by
  cases k with
  | zero => simp [readStringLength, readUint8]
  | succ k =>
    unfold strHeader at h ⊢
    split_ifs at h ⊢ <;>
      simp only [List.length_cons, List.length_singleton, List.length_nil, length_natBE] at h <;>
      first
        | omega
        | (simp only [readStringLength, List.take_succ_cons, readUint8_cons, byte_val]
           simp
           apply readBE_short
           simp [length_natBE]
           omega)

theorem readBinLength_ok (n : Nat) (h : n < 2 ^ 32) (t : Decoder) :
    readBinLength (binHeader n ++ t) = .ok (n, t) := by
  unfold binHeader
  split_ifs with h1 h2
  all_goals
    simp only [readBinLength, List.cons_append, readUint8_cons, byte_val, readBE_ok]
    simp
    omega

theorem readBinLength_short (n k : Nat) (h : k < (binHeader n).length) :
    readBinLength ((binHeader n).take k) = .error errEOF := by
  cases k with
  | zero => simp [readBinLength, readUint8]
  | succ k =>
    unfold binHeader at h ⊢
    split_ifs at h ⊢ <;>
      simp only [List.length_cons, List.length_singleton, List.length_nil, length_natBE] at h <;>
      first
        | omega
        | (simp only [readBinLength, List.take_succ_cons, readUint8_cons, byte_val]
           simp
           apply readBE_short
           simp [length_natBE]
           omega)

theorem ReadString_ok (s : GoString) (h : s.length < 2 ^ 32) (t : Decoder) :
    ReadString (strBytes s ++ t) = .ok (s, t) := by
  simp only [ReadString, strBytes, Nat.mod_eq_of_lt h, List.append_assoc,
    readStringLength_ok _ h, getBytes_ok]

theorem ReadString_short (s : GoString) (h : s.length < 2 ^ 32) (k : Nat)
    (hk : k < (strBytes s).length) : ReadString ((strBytes s).take k) = .error errEOF := by
  simp only [strBytes, Nat.mod_eq_of_lt h, List.length_append] at hk ⊢
  rw [take_append_cases]
  split
  · next h1 => simp only [ReadString, readStringLength_short _ _ h1]
  · next h1 =>
    simp only [ReadString, readStringLength_ok _ h]
    apply getBytes_short
    simp only [List.length_take]
    omega

theorem ReadByteArray_ok (b : List Byte) (h : b.length < 2 ^ 32) (t : Decoder) :
    ReadByteArray (binBytes b ++ t) = .ok (b, t) := by
  simp only [ReadByteArray, binBytes, Nat.mod_eq_of_lt h, List.append_assoc,
    readBinLength_ok _ h, getBytes_ok]

theorem ReadByteArray_short (b : List Byte) (h : b.length < 2 ^ 32) (k : Nat)
    (hk : k < (binBytes b).length) : ReadByteArray ((binBytes b).take k) = .error errEOF := by
  simp only [binBytes, Nat.mod_eq_of_lt h, List.length_append] at hk ⊢
  rw [take_append_cases]
  split
  · next h1 => simp only [ReadByteArray, readBinLength_short _ _ h1]
  · next h1 =>
    simp only [ReadByteArray, readBinLength_ok _ h]
    apply getBytes_short
    simp only [List.length_take]
    omega

theorem ReadUint32_ok (n : Nat) (h : n < 2 ^ 32) (t : Decoder) :
    ReadUint32 (u32Bytes n ++ t) = .ok (n, t) := by
  simp only [ReadUint32, u32Bytes, List.cons_append, readUint8_cons, byte_val, readBE_ok]
  simp
  omega

theorem ReadUint32_short (n k : Nat) (hk : k < (u32Bytes n).length) :
    ReadUint32 ((u32Bytes n).take k) = .error errEOF := by
  cases k with
  | zero => simp [ReadUint32, readUint8]
  | succ k =>
    simp only [u32Bytes, List.length_cons, length_natBE] at hk
    simp only [ReadUint32, u32Bytes, List.take_succ_cons, readUint8_cons, byte_val]
    simp
    apply readBE_short
    simp [length_natBE]
    omega

theorem length_strBytes (s : GoString) :
    (strBytes s).length = strHeaderSize (s.length % 2 ^ 32) + s.length := by
  simp only [strBytes, List.length_append, strHeader, strHeaderSize]
  split_ifs <;> simp [length_natBE]

theorem length_binBytes (b : List Byte) :
    (binBytes b).length = binHeaderSize (b.length % 2 ^ 32) + b.length := by
  simp only [binBytes, List.length_append, binHeader, binHeaderSize]
  split_ifs <;> simp [length_natBE]

theorem length_u32Bytes (n : Nat) : (u32Bytes n).length = 5 := by
  simp [u32Bytes, length_natBE]

theorem length_mapSizeBytes (n : Nat) :
    (mapSizeBytes n).length = if n < 16 then 1 else if n ≤ 0xffff then 3 else 5 := by
  simp only [mapSizeBytes]
  split_ifs <;> simp [length_natBE]

/-! ## The two-pass encode -/

theorem SetBytes_fill (bs w : List Byte) (k : Nat) :
    Encoder.SetBytes bs ⟨w ++ List.replicate (bs.length + k) (0 : Byte), w.length⟩
      = ⟨(w ++ bs) ++ List.replicate k (0 : Byte), (w ++ bs).length⟩ := by
  simp only [Encoder.SetBytes, List.length_append, List.length_replicate, Encoder.mk.injEq,
    and_true]
  rw [List.take_left, List.drop_append, List.drop_replicate, Nat.add_sub_cancel_left,
    List.take_of_length_le]
  simp only [List.length_append, List.length_replicate]
  omega

/-- Writing seven segments into a zeroed buffer of exactly their total length
leaves exactly their concatenation in the buffer. -/
theorem fill_seven (a b c d e f g : List Byte) (n : Nat)
    (hn : n = a.length + (b.length + (c.length + (d.length + (e.length + (f.length
            + (g.length + 0))))))) :
    (Encoder.SetBytes g (Encoder.SetBytes f (Encoder.SetBytes e (Encoder.SetBytes d
      (Encoder.SetBytes c (Encoder.SetBytes b (Encoder.SetBytes a
        (NewEncoder (List.replicate n (0 : Byte)))))))))).buffer
      = a ++ b ++ c ++ d ++ e ++ f ++ g := by
  subst hn
  have h0 : NewEncoder (List.replicate (a.length + (b.length + (c.length + (d.length
      + (e.length + (f.length + (g.length + 0))))))) (0 : Byte))
      = ⟨[] ++ List.replicate (a.length + (b.length + (c.length + (d.length
      + (e.length + (f.length + (g.length + 0))))))) (0 : Byte), ([] : List Byte).length⟩ := rfl
  rw [h0, SetBytes_fill, SetBytes_fill, SetBytes_fill, SetBytes_fill, SetBytes_fill,
    SetBytes_fill, SetBytes_fill]
  simp

theorem PubMessage_bytes_eq (o : PubMessage) :
    o.bytes = mapSizeBytes 3 ++ strBytes (ascii "subject") ++ strBytes o.Subject
      ++ strBytes (ascii "replyTo") ++ strBytes o.ReplyTo
      ++ strBytes (ascii "body") ++ binBytes o.Body := by
  unfold PubMessage.bytes PubMessage.Encode
  simp only [encoderWriter, sizerWriter, Sizer.Len]
  apply fill_seven
  simp only [length_strBytes, length_binBytes, length_mapSizeBytes]
  simp
  omega

theorem ReplyMessage_bytes_eq (o : ReplyMessage) :
    o.bytes = mapSizeBytes 3 ++ strBytes (ascii "subject") ++ strBytes o.Subject
      ++ strBytes (ascii "replyTo") ++ strBytes o.ReplyTo
      ++ strBytes (ascii "body") ++ binBytes o.Body := by
  unfold ReplyMessage.bytes ReplyMessage.Encode
  simp only [encoderWriter, sizerWriter, Sizer.Len]
  apply fill_seven
  simp only [length_strBytes, length_binBytes, length_mapSizeBytes]
  simp
  omega

theorem SubMessage_bytes_eq (o : SubMessage) :
    o.bytes = mapSizeBytes 3 ++ strBytes (ascii "subject") ++ strBytes o.Subject
      ++ strBytes (ascii "replyTo") ++ strBytes o.ReplyTo
      ++ strBytes (ascii "body") ++ binBytes o.Body := by
  unfold SubMessage.bytes SubMessage.Encode
  simp only [encoderWriter, sizerWriter, Sizer.Len]
  apply fill_seven
  simp only [length_strBytes, length_binBytes, length_mapSizeBytes]
  simp
  omega

theorem RequestMessage_bytes_eq (o : RequestMessage) :
    o.bytes = mapSizeBytes 3 ++ strBytes (ascii "subject") ++ strBytes o.Subject
      ++ strBytes (ascii "body") ++ binBytes o.Body
      ++ strBytes (ascii "timeoutMs") ++ u32Bytes o.TimeoutMs := by
  unfold RequestMessage.bytes RequestMessage.Encode
  simp only [encoderWriter, sizerWriter, Sizer.Len]
  apply fill_seven
  simp only [length_strBytes, length_binBytes, length_mapSizeBytes, length_u32Bytes]
  simp
  omega

/-! ## The decode loop of PubMessage on written entries -/

theorem DecodePubMessage_loop_Subject (n : Nat) (val : PubMessage) (s : GoString) (hs : s.length < 2 ^ 32) (t : Decoder) :
    DecodePubMessage.loop (n + 1) val (strBytes (ascii "subject") ++ (strBytes s ++ t))
      = DecodePubMessage.loop n { val with Subject := s } t := by
  rw [DecodePubMessage.loop, ReadString_ok _ (by decide)]
  dsimp only
  rw [if_pos rfl, ReadString_ok _ hs]

theorem DecodePubMessage_loop_ReplyTo (n : Nat) (val : PubMessage) (s : GoString) (hs : s.length < 2 ^ 32) (t : Decoder) :
    DecodePubMessage.loop (n + 1) val (strBytes (ascii "replyTo") ++ (strBytes s ++ t))
      = DecodePubMessage.loop n { val with ReplyTo := s } t := by
  rw [DecodePubMessage.loop, ReadString_ok _ (by decide)]
  dsimp only
  rw [if_neg (by decide), if_pos rfl, ReadString_ok _ hs]

theorem DecodePubMessage_loop_Body (n : Nat) (val : PubMessage) (s : List Byte) (hs : s.length < 2 ^ 32) (t : Decoder) :
    DecodePubMessage.loop (n + 1) val (strBytes (ascii "body") ++ (binBytes s ++ t))
      = DecodePubMessage.loop n { val with Body := s } t := by
  rw [DecodePubMessage.loop, ReadString_ok _ (by decide)]
  dsimp only
  rw [if_neg (by decide), if_neg (by decide), if_pos rfl, ReadByteArray_ok _ hs]

theorem DecodePubMessage_loop_Subject_cut (n : Nat) (val : PubMessage) (s : GoString) (hs : s.length < 2 ^ 32) (k : Nat)
    (hk : k < (strBytes (ascii "subject") ++ strBytes s).length) :
    DecodePubMessage.loop (n + 1) val ((strBytes (ascii "subject") ++ strBytes s).take k)
      = .error errEOF := by
  rw [List.length_append] at hk
  rw [take_append_cases]
  split
  · next h1 => rw [DecodePubMessage.loop, ReadString_short _ (by decide) _ h1]
  · next h1 =>
    rw [DecodePubMessage.loop, ReadString_ok _ (by decide)]
    dsimp only
    rw [if_pos rfl, ReadString_short _ hs _ (by omega)]

theorem DecodePubMessage_loop_ReplyTo_cut (n : Nat) (val : PubMessage) (s : GoString) (hs : s.length < 2 ^ 32) (k : Nat)
    (hk : k < (strBytes (ascii "replyTo") ++ strBytes s).length) :
    DecodePubMessage.loop (n + 1) val ((strBytes (ascii "replyTo") ++ strBytes s).take k)
      = .error errEOF := by
  rw [List.length_append] at hk
  rw [take_append_cases]
  split
  · next h1 => rw [DecodePubMessage.loop, ReadString_short _ (by decide) _ h1]
  · next h1 =>
    rw [DecodePubMessage.loop, ReadString_ok _ (by decide)]
    dsimp only
    rw [if_neg (by decide), if_pos rfl, ReadString_short _ hs _ (by omega)]

theorem DecodePubMessage_loop_Body_cut (n : Nat) (val : PubMessage) (s : List Byte) (hs : s.length < 2 ^ 32) (k : Nat)
    (hk : k < (strBytes (ascii "body") ++ binBytes s).length) :
    DecodePubMessage.loop (n + 1) val ((strBytes (ascii "body") ++ binBytes s).take k)
      = .error errEOF := by
  rw [List.length_append] at hk
  rw [take_append_cases]
  split
  · next h1 => rw [DecodePubMessage.loop, ReadString_short _ (by decide) _ h1]
  · next h1 =>
    rw [DecodePubMessage.loop, ReadString_ok _ (by decide)]
    dsimp only
    rw [if_neg (by decide), if_neg (by decide), if_pos rfl, ReadByteArray_short _ hs _ (by omega)]

/-! ## The decode loop of ReplyMessage on written entries -/

theorem DecodeReplyMessage_loop_Subject (n : Nat) (val : ReplyMessage) (s : GoString) (hs : s.length < 2 ^ 32) (t : Decoder) :
    DecodeReplyMessage.loop (n + 1) val (strBytes (ascii "subject") ++ (strBytes s ++ t))
      = DecodeReplyMessage.loop n { val with Subject := s } t := by
  rw [DecodeReplyMessage.loop, ReadString_ok _ (by decide)]
  dsimp only
  rw [if_pos rfl, ReadString_ok _ hs]

theorem DecodeReplyMessage_loop_ReplyTo (n : Nat) (val : ReplyMessage) (s : GoString) (hs : s.length < 2 ^ 32) (t : Decoder) :
    DecodeReplyMessage.loop (n + 1) val (strBytes (ascii "replyTo") ++ (strBytes s ++ t))
      = DecodeReplyMessage.loop n { val with ReplyTo := s } t := by
  rw [DecodeReplyMessage.loop, ReadString_ok _ (by decide)]
  dsimp only
  rw [if_neg (by decide), if_pos rfl, ReadString_ok _ hs]

theorem DecodeReplyMessage_loop_Body (n : Nat) (val : ReplyMessage) (s : List Byte) (hs : s.length < 2 ^ 32) (t : Decoder) :
    DecodeReplyMessage.loop (n + 1) val (strBytes (ascii "body") ++ (binBytes s ++ t))
      = DecodeReplyMessage.loop n { val with Body := s } t := by
  rw [DecodeReplyMessage.loop, ReadString_ok _ (by decide)]
  dsimp only
  rw [if_neg (by decide), if_neg (by decide), if_pos rfl, ReadByteArray_ok _ hs]

theorem DecodeReplyMessage_loop_Subject_cut (n : Nat) (val : ReplyMessage) (s : GoString) (hs : s.length < 2 ^ 32) (k : Nat)
    (hk : k < (strBytes (ascii "subject") ++ strBytes s).length) :
    DecodeReplyMessage.loop (n + 1) val ((strBytes (ascii "subject") ++ strBytes s).take k)
      = .error errEOF := by
  rw [List.length_append] at hk
  rw [take_append_cases]
  split
  · next h1 => rw [DecodeReplyMessage.loop, ReadString_short _ (by decide) _ h1]
  · next h1 =>
    rw [DecodeReplyMessage.loop, ReadString_ok _ (by decide)]
    dsimp only
    rw [if_pos rfl, ReadString_short _ hs _ (by omega)]

theorem DecodeReplyMessage_loop_ReplyTo_cut (n : Nat) (val : ReplyMessage) (s : GoString) (hs : s.length < 2 ^ 32) (k : Nat)
    (hk : k < (strBytes (ascii "replyTo") ++ strBytes s).length) :
    DecodeReplyMessage.loop (n + 1) val ((strBytes (ascii "replyTo") ++ strBytes s).take k)
      = .error errEOF := by
  rw [List.length_append] at hk
  rw [take_append_cases]
  split
  · next h1 => rw [DecodeReplyMessage.loop, ReadString_short _ (by decide) _ h1]
  · next h1 =>
    rw [DecodeReplyMessage.loop, ReadString_ok _ (by decide)]
    dsimp only
    rw [if_neg (by decide), if_pos rfl, ReadString_short _ hs _ (by omega)]

theorem DecodeReplyMessage_loop_Body_cut (n : Nat) (val : ReplyMessage) (s : List Byte) (hs : s.length < 2 ^ 32) (k : Nat)
    (hk : k < (strBytes (ascii "body") ++ binBytes s).length) :
    DecodeReplyMessage.loop (n + 1) val ((strBytes (ascii "body") ++ binBytes s).take k)
      = .error errEOF := by
  rw [List.length_append] at hk
  rw [take_append_cases]
  split
  · next h1 => rw [DecodeReplyMessage.loop, ReadString_short _ (by decide) _ h1]
  · next h1 =>
    rw [DecodeReplyMessage.loop, ReadString_ok _ (by decide)]
    dsimp only
    rw [if_neg (by decide), if_neg (by decide), if_pos rfl, ReadByteArray_short _ hs _ (by omega)]

/-! ## The decode loop of SubMessage on written entries -/

theorem DecodeSubMessage_loop_Subject (n : Nat) (val : SubMessage) (s : GoString) (hs : s.length < 2 ^ 32) (t : Decoder) :
    DecodeSubMessage.loop (n + 1) val (strBytes (ascii "subject") ++ (strBytes s ++ t))
      = DecodeSubMessage.loop n { val with Subject := s } t := by
  rw [DecodeSubMessage.loop, ReadString_ok _ (by decide)]
  dsimp only
  rw [if_pos rfl, ReadString_ok _ hs]

theorem DecodeSubMessage_loop_ReplyTo (n : Nat) (val : SubMessage) (s : GoString) (hs : s.length < 2 ^ 32) (t : Decoder) :
    DecodeSubMessage.loop (n + 1) val (strBytes (ascii "replyTo") ++ (strBytes s ++ t))
      = DecodeSubMessage.loop n { val with ReplyTo := s } t := by
  rw [DecodeSubMessage.loop, ReadString_ok _ (by decide)]
  dsimp only
  rw [if_neg (by decide), if_pos rfl, ReadString_ok _ hs]

theorem DecodeSubMessage_loop_Body (n : Nat) (val : SubMessage) (s : List Byte) (hs : s.length < 2 ^ 32) (t : Decoder) :
    DecodeSubMessage.loop (n + 1) val (strBytes (ascii "body") ++ (binBytes s ++ t))
      = DecodeSubMessage.loop n { val with Body := s } t := by
  rw [DecodeSubMessage.loop, ReadString_ok _ (by decide)]
  dsimp only
  rw [if_neg (by decide), if_neg (by decide), if_pos rfl, ReadByteArray_ok _ hs]

theorem DecodeSubMessage_loop_Subject_cut (n : Nat) (val : SubMessage) (s : GoString) (hs : s.length < 2 ^ 32) (k : Nat)
    (hk : k < (strBytes (ascii "subject") ++ strBytes s).length) :
    DecodeSubMessage.loop (n + 1) val ((strBytes (ascii "subject") ++ strBytes s).take k)
      = .error errEOF := by
  rw [List.length_append] at hk
  rw [take_append_cases]
  split
  · next h1 => rw [DecodeSubMessage.loop, ReadString_short _ (by decide) _ h1]
  · next h1 =>
    rw [DecodeSubMessage.loop, ReadString_ok _ (by decide)]
    dsimp only
    rw [if_pos rfl, ReadString_short _ hs _ (by omega)]

theorem DecodeSubMessage_loop_ReplyTo_cut (n : Nat) (val : SubMessage) (s : GoString) (hs : s.length < 2 ^ 32) (k : Nat)
    (hk : k < (strBytes (ascii "replyTo") ++ strBytes s).length) :
    DecodeSubMessage.loop (n + 1) val ((strBytes (ascii "replyTo") ++ strBytes s).take k)
      = .error errEOF := by
  rw [List.length_append] at hk
  rw [take_append_cases]
  split
  · next h1 => rw [DecodeSubMessage.loop, ReadString_short _ (by decide) _ h1]
  · next h1 =>
    rw [DecodeSubMessage.loop, ReadString_ok _ (by decide)]
    dsimp only
    rw [if_neg (by decide), if_pos rfl, ReadString_short _ hs _ (by omega)]

theorem DecodeSubMessage_loop_Body_cut (n : Nat) (val : SubMessage) (s : List Byte) (hs : s.length < 2 ^ 32) (k : Nat)
    (hk : k < (strBytes (ascii "body") ++ binBytes s).length) :
    DecodeSubMessage.loop (n + 1) val ((strBytes (ascii "body") ++ binBytes s).take k)
      = .error errEOF := by
  rw [List.length_append] at hk
  rw [take_append_cases]
  split
  · next h1 => rw [DecodeSubMessage.loop, ReadString_short _ (by decide) _ h1]
  · next h1 =>
    rw [DecodeSubMessage.loop, ReadString_ok _ (by decide)]
    dsimp only
    rw [if_neg (by decide), if_neg (by decide), if_pos rfl, ReadByteArray_short _ hs _ (by omega)]

/-! ## The decode loop of RequestMessage on written entries -/

theorem DecodeRequestMessage_loop_Subject (n : Nat) (val : RequestMessage) (s : GoString) (hs : s.length < 2 ^ 32) (t : Decoder) :
    DecodeRequestMessage.loop (n + 1) val (strBytes (ascii "subject") ++ (strBytes s ++ t))
      = DecodeRequestMessage.loop n { val with Subject := s } t := by
  rw [DecodeRequestMessage.loop, ReadString_ok _ (by decide)]
  dsimp only
  rw [if_pos rfl, ReadString_ok _ hs]

theorem DecodeRequestMessage_loop_Body (n : Nat) (val : RequestMessage) (s : List Byte) (hs : s.length < 2 ^ 32) (t : Decoder) :
    DecodeRequestMessage.loop (n + 1) val (strBytes (ascii "body") ++ (binBytes s ++ t))
      = DecodeRequestMessage.loop n { val with Body := s } t := by
  rw [DecodeRequestMessage.loop, ReadString_ok _ (by decide)]
  dsimp only
  rw [if_neg (by decide), if_pos rfl, ReadByteArray_ok _ hs]

theorem DecodeRequestMessage_loop_TimeoutMs (n : Nat) (val : RequestMessage) (s : Nat) (hs : s < 2 ^ 32) (t : Decoder) :
    DecodeRequestMessage.loop (n + 1) val (strBytes (ascii "timeoutMs") ++ (u32Bytes s ++ t))
      = DecodeRequestMessage.loop n { val with TimeoutMs := s } t := by
  rw [DecodeRequestMessage.loop, ReadString_ok _ (by decide)]
  dsimp only
  rw [if_neg (by decide), if_neg (by decide), if_pos rfl, ReadUint32_ok _ hs]

theorem DecodeRequestMessage_loop_Subject_cut (n : Nat) (val : RequestMessage) (s : GoString) (hs : s.length < 2 ^ 32) (k : Nat)
    (hk : k < (strBytes (ascii "subject") ++ strBytes s).length) :
    DecodeRequestMessage.loop (n + 1) val ((strBytes (ascii "subject") ++ strBytes s).take k)
      = .error errEOF := by
  rw [List.length_append] at hk
  rw [take_append_cases]
  split
  · next h1 => rw [DecodeRequestMessage.loop, ReadString_short _ (by decide) _ h1]
  · next h1 =>
    rw [DecodeRequestMessage.loop, ReadString_ok _ (by decide)]
    dsimp only
    rw [if_pos rfl, ReadString_short _ hs _ (by omega)]

theorem DecodeRequestMessage_loop_Body_cut (n : Nat) (val : RequestMessage) (s : List Byte) (hs : s.length < 2 ^ 32) (k : Nat)
    (hk : k < (strBytes (ascii "body") ++ binBytes s).length) :
    DecodeRequestMessage.loop (n + 1) val ((strBytes (ascii "body") ++ binBytes s).take k)
      = .error errEOF := by
  rw [List.length_append] at hk
  rw [take_append_cases]
  split
  · next h1 => rw [DecodeRequestMessage.loop, ReadString_short _ (by decide) _ h1]
  · next h1 =>
    rw [DecodeRequestMessage.loop, ReadString_ok _ (by decide)]
    dsimp only
    rw [if_neg (by decide), if_pos rfl, ReadByteArray_short _ hs _ (by omega)]

theorem DecodeRequestMessage_loop_TimeoutMs_cut (n : Nat) (val : RequestMessage) (s : Nat) (_hs : s < 2 ^ 32) (k : Nat)
    (hk : k < (strBytes (ascii "timeoutMs") ++ u32Bytes s).length) :
    DecodeRequestMessage.loop (n + 1) val ((strBytes (ascii "timeoutMs") ++ u32Bytes s).take k)
      = .error errEOF := by
  rw [List.length_append] at hk
  rw [take_append_cases]
  split
  · next h1 => rw [DecodeRequestMessage.loop, ReadString_short _ (by decide) _ h1]
  · next h1 =>
    rw [DecodeRequestMessage.loop, ReadString_ok _ (by decide)]
    dsimp only
    rw [if_neg (by decide), if_neg (by decide), if_pos rfl, ReadUint32_short _ _ (by omega)]

/-! ## Map header, nil marker, skip -/

theorem IsNextNil_mapSize (n : Nat) (t : Decoder) :
    IsNextNil (mapSizeBytes n ++ t) = .ok (false, mapSizeBytes n ++ t) := by
  unfold mapSizeBytes
  split_ifs with h1 h2
  · have e : (0x80 + n) % 256 = 0x80 + n := Nat.mod_eq_of_lt (by omega)
    simp only [IsNextNil, List.singleton_append, byte_val, e]
    rw [if_neg (by omega)]
  all_goals
    simp only [IsNextNil, List.cons_append, byte_val]
    simp

theorem ReadMapSize_ok (n : Nat) (h : n < 2 ^ 32) (t : Decoder) :
    ReadMapSize (mapSizeBytes n ++ t) = .ok (n, t) := by
  unfold mapSizeBytes
  split_ifs with h1 h2
  · have e : (0x80 + n) % 256 = 0x80 + n := Nat.mod_eq_of_lt (by omega)
    simp only [ReadMapSize, List.singleton_append, readUint8_cons, byte_val, e]
    rw [if_pos (by omega)]
    simp
  all_goals
    simp only [ReadMapSize, List.cons_append, readUint8_cons, byte_val, readBE_ok]
    simp
    omega

theorem Skip_ok (v : Value) (h : v.WellFormed) (t : Decoder) :
    Skip (v.bytes ++ t) = .ok t := by
  cases v with
  | nil => simp [Value.bytes, nilBytes, Skip, readUint8_cons, byte_val]
  | uint32 n =>
    have e := getBytes_ok (natBE 4 n) t
    rw [length_natBE] at e
    simp [Value.bytes, u32Bytes, Skip, readUint8_cons, byte_val, e]
  | str s =>
    simp only [Value.WellFormed] at h
    simp only [Value.bytes, strBytes, Nat.mod_eq_of_lt h, strHeader]
    split_ifs with h1 h2 h3
    · have e : (0xa0 + s.length) % 256 = 0xa0 + s.length := Nat.mod_eq_of_lt (by omega)
      simp only [Skip, List.singleton_append, List.cons_append, List.nil_append, readUint8_cons,
        byte_val, e]
      rw [if_neg (by omega), if_neg (by omega), if_pos (by omega)]
      simp [getBytes_ok]
    all_goals
      simp only [Skip, List.cons_append, List.append_assoc, readUint8_cons, byte_val, readBE_ok]
      simp
      rw [Nat.mod_eq_of_lt (by omega)]
      simp [getBytes_ok]
  | bin b =>
    simp only [Value.WellFormed] at h
    simp only [Value.bytes, binBytes, Nat.mod_eq_of_lt h, binHeader]
    split_ifs with h1 h2
    all_goals
      simp only [Skip, List.cons_append, List.append_assoc, readUint8_cons, byte_val, readBE_ok]
      simp
      rw [Nat.mod_eq_of_lt (by omega)]
      simp [getBytes_ok]

/-! ## Decoding written records -/

theorem DecodePubMessage_map (n : Nat) (h : n < 2 ^ 32) (t : Decoder) :
    DecodePubMessage (mapSizeBytes n ++ t) = DecodePubMessage.loop n PubMessage.zero t := by
  rw [DecodePubMessage, IsNextNil_mapSize]
  dsimp only
  rw [ReadMapSize_ok _ h]

theorem DecodePubMessage_loop_unknown (n : Nat) (val : PubMessage) (name : GoString) (v : Value)
    (hn : name.length < 2 ^ 32) (hv : v.WellFormed)
    (h1 : name ≠ ascii "subject") (h2 : name ≠ ascii "replyTo") (h3 : name ≠ ascii "body")
    (t : Decoder) :
    DecodePubMessage.loop (n + 1) val (strBytes name ++ (v.bytes ++ t))
      = DecodePubMessage.loop n val t := by
  rw [DecodePubMessage.loop, ReadString_ok _ hn]
  dsimp only
  rw [if_neg h1, if_neg h2, if_neg h3, Skip_ok _ hv]

theorem DecodePubMessage_loop_fields (n : Nat) (val r : PubMessage) (h : r.Valid) (t : Decoder) :
    DecodePubMessage.loop (n + 3) val
        ((strBytes (ascii "subject") ++ strBytes r.Subject) ++ ((strBytes (ascii "replyTo") ++ strBytes r.ReplyTo)
          ++ ((strBytes (ascii "body") ++ binBytes r.Body) ++ t)))
      = DecodePubMessage.loop n r t := by
  obtain ⟨h1, h2, h3⟩ := h
  rw [List.append_assoc, DecodePubMessage_loop_Subject _ _ _ h1, List.append_assoc,
    DecodePubMessage_loop_ReplyTo _ _ _ h2, List.append_assoc, DecodePubMessage_loop_Body _ _ _ h3]

theorem DecodePubMessage_loop_cut (val r : PubMessage) (h : r.Valid) (k : Nat)
    (hk : k < (strBytes (ascii "subject") ++ strBytes r.Subject).length
            + ((strBytes (ascii "replyTo") ++ strBytes r.ReplyTo).length
            + (strBytes (ascii "body") ++ binBytes r.Body).length)) :
    DecodePubMessage.loop 3 val
        (((strBytes (ascii "subject") ++ strBytes r.Subject) ++ ((strBytes (ascii "replyTo") ++ strBytes r.ReplyTo)
          ++ (strBytes (ascii "body") ++ binBytes r.Body))).take k)
      = .error errEOF := by
  obtain ⟨h1, h2, h3⟩ := h
  rw [take_append_cases]
  split
  · next c1 => exact DecodePubMessage_loop_Subject_cut _ _ _ h1 _ c1
  · next c1 =>
    rw [List.append_assoc, DecodePubMessage_loop_Subject _ _ _ h1, take_append_cases]
    split
    · next c2 => exact DecodePubMessage_loop_ReplyTo_cut _ _ _ h2 _ c2
    · next c2 =>
      rw [List.append_assoc, DecodePubMessage_loop_ReplyTo _ _ _ h2]
      exact DecodePubMessage_loop_Body_cut _ _ _ h3 _ (by omega)

theorem PubMessage_bytes_eq_cons (o : PubMessage) :
    o.bytes = byte 0x83 :: ((strBytes (ascii "subject") ++ strBytes o.Subject)
      ++ ((strBytes (ascii "replyTo") ++ strBytes o.ReplyTo) ++ (strBytes (ascii "body") ++ binBytes o.Body))) := by
  rw [PubMessage_bytes_eq]
  simp [mapSizeBytes]

theorem DecodePubMessage_bytes_append (r : PubMessage) (h : r.Valid) (t : Decoder) :
    DecodePubMessage (r.bytes ++ t) = .ok (r, t) := by
  have e : r.bytes ++ t = mapSizeBytes 3 ++ ((strBytes (ascii "subject") ++ strBytes r.Subject)
      ++ ((strBytes (ascii "replyTo") ++ strBytes r.ReplyTo) ++ ((strBytes (ascii "body") ++ binBytes r.Body) ++ t))) := by
    rw [PubMessage_bytes_eq_cons]
    simp [mapSizeBytes]
  rw [e, DecodePubMessage_map 3 (by decide), DecodePubMessage_loop_fields 0 _ r h, DecodePubMessage.loop]

theorem DecodePubMessage_bytes_cut (r : PubMessage) (h : r.Valid) (k : Nat) (hk : k < r.bytes.length) :
    DecodePubMessage (r.bytes.take k) = .error errEOF := by
  rw [PubMessage_bytes_eq_cons] at hk ⊢
  cases k with
  | zero => rfl
  | succ k =>
    rw [List.take_succ_cons]
    have e : ∀ t : List Byte, byte 0x83 :: t = mapSizeBytes 3 ++ t := fun _ => rfl
    rw [e, DecodePubMessage_map 3 (by decide)]
    apply DecodePubMessage_loop_cut _ _ h
    simp only [List.length_cons, List.length_append] at hk ⊢
    omega

theorem DecodePubMessage_extra_field (r : PubMessage) (h : r.Valid) (name : GoString) (v : Value)
    (hn : name.length < 2 ^ 32) (hv : v.WellFormed)
    (h1 : name ≠ ascii "subject") (h2 : name ≠ ascii "replyTo") (h3 : name ≠ ascii "body") :
    DecodePubMessage (NewDecoder (mapSizeBytes 4 ++ r.bytes.drop 1 ++ strBytes name ++ v.bytes))
      = .ok (r, []) := by
  have e : mapSizeBytes 4 ++ r.bytes.drop 1 ++ strBytes name ++ v.bytes
      = mapSizeBytes 4 ++ ((strBytes (ascii "subject") ++ strBytes r.Subject)
      ++ ((strBytes (ascii "replyTo") ++ strBytes r.ReplyTo) ++ ((strBytes (ascii "body") ++ binBytes r.Body)
        ++ (strBytes name ++ (v.bytes ++ []))))) := by
    rw [PubMessage_bytes_eq_cons]
    simp
  rw [NewDecoder, e, DecodePubMessage_map 4 (by decide), DecodePubMessage_loop_fields 1 _ r h,
    DecodePubMessage_loop_unknown 0 _ _ _ hn hv h1 h2 h3, DecodePubMessage.loop]

theorem DecodeReplyMessage_map (n : Nat) (h : n < 2 ^ 32) (t : Decoder) :
    DecodeReplyMessage (mapSizeBytes n ++ t) = DecodeReplyMessage.loop n ReplyMessage.zero t := by
  rw [DecodeReplyMessage, IsNextNil_mapSize]
  dsimp only
  rw [ReadMapSize_ok _ h]

theorem DecodeReplyMessage_loop_unknown (n : Nat) (val : ReplyMessage) (name : GoString) (v : Value)
    (hn : name.length < 2 ^ 32) (hv : v.WellFormed)
    (h1 : name ≠ ascii "subject") (h2 : name ≠ ascii "replyTo") (h3 : name ≠ ascii "body")
    (t : Decoder) :
    DecodeReplyMessage.loop (n + 1) val (strBytes name ++ (v.bytes ++ t))
      = DecodeReplyMessage.loop n val t := by
  rw [DecodeReplyMessage.loop, ReadString_ok _ hn]
  dsimp only
  rw [if_neg h1, if_neg h2, if_neg h3, Skip_ok _ hv]

theorem DecodeReplyMessage_loop_fields (n : Nat) (val r : ReplyMessage) (h : r.Valid) (t : Decoder) :
    DecodeReplyMessage.loop (n + 3) val
        ((strBytes (ascii "subject") ++ strBytes r.Subject) ++ ((strBytes (ascii "replyTo") ++ strBytes r.ReplyTo)
          ++ ((strBytes (ascii "body") ++ binBytes r.Body) ++ t)))
      = DecodeReplyMessage.loop n r t := by
  obtain ⟨h1, h2, h3⟩ := h
  rw [List.append_assoc, DecodeReplyMessage_loop_Subject _ _ _ h1, List.append_assoc,
    DecodeReplyMessage_loop_ReplyTo _ _ _ h2, List.append_assoc, DecodeReplyMessage_loop_Body _ _ _ h3]

theorem DecodeReplyMessage_loop_cut (val r : ReplyMessage) (h : r.Valid) (k : Nat)
    (hk : k < (strBytes (ascii "subject") ++ strBytes r.Subject).length
            + ((strBytes (ascii "replyTo") ++ strBytes r.ReplyTo).length
            + (strBytes (ascii "body") ++ binBytes r.Body).length)) :
    DecodeReplyMessage.loop 3 val
        (((strBytes (ascii "subject") ++ strBytes r.Subject) ++ ((strBytes (ascii "replyTo") ++ strBytes r.ReplyTo)
          ++ (strBytes (ascii "body") ++ binBytes r.Body))).take k)
      = .error errEOF := by
  obtain ⟨h1, h2, h3⟩ := h
  rw [take_append_cases]
  split
  · next c1 => exact DecodeReplyMessage_loop_Subject_cut _ _ _ h1 _ c1
  · next c1 =>
    rw [List.append_assoc, DecodeReplyMessage_loop_Subject _ _ _ h1, take_append_cases]
    split
    · next c2 => exact DecodeReplyMessage_loop_ReplyTo_cut _ _ _ h2 _ c2
    · next c2 =>
      rw [List.append_assoc, DecodeReplyMessage_loop_ReplyTo _ _ _ h2]
      exact DecodeReplyMessage_loop_Body_cut _ _ _ h3 _ (by omega)

theorem ReplyMessage_bytes_eq_cons (o : ReplyMessage) :
    o.bytes = byte 0x83 :: ((strBytes (ascii "subject") ++ strBytes o.Subject)
      ++ ((strBytes (ascii "replyTo") ++ strBytes o.ReplyTo) ++ (strBytes (ascii "body") ++ binBytes o.Body))) := by
  rw [ReplyMessage_bytes_eq]
  simp [mapSizeBytes]

theorem DecodeReplyMessage_bytes_append (r : ReplyMessage) (h : r.Valid) (t : Decoder) :
    DecodeReplyMessage (r.bytes ++ t) = .ok (r, t) := by
  have e : r.bytes ++ t = mapSizeBytes 3 ++ ((strBytes (ascii "subject") ++ strBytes r.Subject)
      ++ ((strBytes (ascii "replyTo") ++ strBytes r.ReplyTo) ++ ((strBytes (ascii "body") ++ binBytes r.Body) ++ t))) := by
    rw [ReplyMessage_bytes_eq_cons]
    simp [mapSizeBytes]
  rw [e, DecodeReplyMessage_map 3 (by decide), DecodeReplyMessage_loop_fields 0 _ r h, DecodeReplyMessage.loop]

theorem DecodeReplyMessage_bytes_cut (r : ReplyMessage) (h : r.Valid) (k : Nat) (hk : k < r.bytes.length) :
    DecodeReplyMessage (r.bytes.take k) = .error errEOF := by
  rw [ReplyMessage_bytes_eq_cons] at hk ⊢
  cases k with
  | zero => rfl
  | succ k =>
    rw [List.take_succ_cons]
    have e : ∀ t : List Byte, byte 0x83 :: t = mapSizeBytes 3 ++ t := fun _ => rfl
    rw [e, DecodeReplyMessage_map 3 (by decide)]
    apply DecodeReplyMessage_loop_cut _ _ h
    simp only [List.length_cons, List.length_append] at hk ⊢
    omega

theorem DecodeReplyMessage_extra_field (r : ReplyMessage) (h : r.Valid) (name : GoString) (v : Value)
    (hn : name.length < 2 ^ 32) (hv : v.WellFormed)
    (h1 : name ≠ ascii "subject") (h2 : name ≠ ascii "replyTo") (h3 : name ≠ ascii "body") :
    DecodeReplyMessage (NewDecoder (mapSizeBytes 4 ++ r.bytes.drop 1 ++ strBytes name ++ v.bytes))
      = .ok (r, []) := by
  have e : mapSizeBytes 4 ++ r.bytes.drop 1 ++ strBytes name ++ v.bytes
      = mapSizeBytes 4 ++ ((strBytes (ascii "subject") ++ strBytes r.Subject)
      ++ ((strBytes (ascii "replyTo") ++ strBytes r.ReplyTo) ++ ((strBytes (ascii "body") ++ binBytes r.Body)
        ++ (strBytes name ++ (v.bytes ++ []))))) := by
    rw [ReplyMessage_bytes_eq_cons]
    simp
  rw [NewDecoder, e, DecodeReplyMessage_map 4 (by decide), DecodeReplyMessage_loop_fields 1 _ r h,
    DecodeReplyMessage_loop_unknown 0 _ _ _ hn hv h1 h2 h3, DecodeReplyMessage.loop]

theorem DecodeSubMessage_map (n : Nat) (h : n < 2 ^ 32) (t : Decoder) :
    DecodeSubMessage (mapSizeBytes n ++ t) = DecodeSubMessage.loop n SubMessage.zero t := by
  rw [DecodeSubMessage, IsNextNil_mapSize]
  dsimp only
  rw [ReadMapSize_ok _ h]

theorem DecodeSubMessage_loop_unknown (n : Nat) (val : SubMessage) (name : GoString) (v : Value)
    (hn : name.length < 2 ^ 32) (hv : v.WellFormed)
    (h1 : name ≠ ascii "subject") (h2 : name ≠ ascii "replyTo") (h3 : name ≠ ascii "body")
    (t : Decoder) :
    DecodeSubMessage.loop (n + 1) val (strBytes name ++ (v.bytes ++ t))
      = DecodeSubMessage.loop n val t := by
  rw [DecodeSubMessage.loop, ReadString_ok _ hn]
  dsimp only
  rw [if_neg h1, if_neg h2, if_neg h3, Skip_ok _ hv]

theorem DecodeSubMessage_loop_fields (n : Nat) (val r : SubMessage) (h : r.Valid) (t : Decoder) :
    DecodeSubMessage.loop (n + 3) val
        ((strBytes (ascii "subject") ++ strBytes r.Subject) ++ ((strBytes (ascii "replyTo") ++ strBytes r.ReplyTo)
          ++ ((strBytes (ascii "body") ++ binBytes r.Body) ++ t)))
      = DecodeSubMessage.loop n r t := by
  obtain ⟨h1, h2, h3⟩ := h
  rw [List.append_assoc, DecodeSubMessage_loop_Subject _ _ _ h1, List.append_assoc,
    DecodeSubMessage_loop_ReplyTo _ _ _ h2, List.append_assoc, DecodeSubMessage_loop_Body _ _ _ h3]

theorem DecodeSubMessage_loop_cut (val r : SubMessage) (h : r.Valid) (k : Nat)
    (hk : k < (strBytes (ascii "subject") ++ strBytes r.Subject).length
            + ((strBytes (ascii "replyTo") ++ strBytes r.ReplyTo).length
            + (strBytes (ascii "body") ++ binBytes r.Body).length)) :
    DecodeSubMessage.loop 3 val
        (((strBytes (ascii "subject") ++ strBytes r.Subject) ++ ((strBytes (ascii "replyTo") ++ strBytes r.ReplyTo)
          ++ (strBytes (ascii "body") ++ binBytes r.Body))).take k)
      = .error errEOF := by
  obtain ⟨h1, h2, h3⟩ := h
  rw [take_append_cases]
  split
  · next c1 => exact DecodeSubMessage_loop_Subject_cut _ _ _ h1 _ c1
  · next c1 =>
    rw [List.append_assoc, DecodeSubMessage_loop_Subject _ _ _ h1, take_append_cases]
    split
    · next c2 => exact DecodeSubMessage_loop_ReplyTo_cut _ _ _ h2 _ c2
    · next c2 =>
      rw [List.append_assoc, DecodeSubMessage_loop_ReplyTo _ _ _ h2]
      exact DecodeSubMessage_loop_Body_cut _ _ _ h3 _ (by omega)

theorem SubMessage_bytes_eq_cons (o : SubMessage) :
    o.bytes = byte 0x83 :: ((strBytes (ascii "subject") ++ strBytes o.Subject)
      ++ ((strBytes (ascii "replyTo") ++ strBytes o.ReplyTo) ++ (strBytes (ascii "body") ++ binBytes o.Body))) := by
  rw [SubMessage_bytes_eq]
  simp [mapSizeBytes]

theorem DecodeSubMessage_bytes_append (r : SubMessage) (h : r.Valid) (t : Decoder) :
    DecodeSubMessage (r.bytes ++ t) = .ok (r, t) := by
  have e : r.bytes ++ t = mapSizeBytes 3 ++ ((strBytes (ascii "subject") ++ strBytes r.Subject)
      ++ ((strBytes (ascii "replyTo") ++ strBytes r.ReplyTo) ++ ((strBytes (ascii "body") ++ binBytes r.Body) ++ t))) := by
    rw [SubMessage_bytes_eq_cons]
    simp [mapSizeBytes]
  rw [e, DecodeSubMessage_map 3 (by decide), DecodeSubMessage_loop_fields 0 _ r h, DecodeSubMessage.loop]

theorem DecodeSubMessage_bytes_cut (r : SubMessage) (h : r.Valid) (k : Nat) (hk : k < r.bytes.length) :
    DecodeSubMessage (r.bytes.take k) = .error errEOF := by
  rw [SubMessage_bytes_eq_cons] at hk ⊢
  cases k with
  | zero => rfl
  | succ k =>
    rw [List.take_succ_cons]
    have e : ∀ t : List Byte, byte 0x83 :: t = mapSizeBytes 3 ++ t := fun _ => rfl
    rw [e, DecodeSubMessage_map 3 (by decide)]
    apply DecodeSubMessage_loop_cut _ _ h
    simp only [List.length_cons, List.length_append] at hk ⊢
    omega

theorem DecodeSubMessage_extra_field (r : SubMessage) (h : r.Valid) (name : GoString) (v : Value)
    (hn : name.length < 2 ^ 32) (hv : v.WellFormed)
    (h1 : name ≠ ascii "subject") (h2 : name ≠ ascii "replyTo") (h3 : name ≠ ascii "body") :
    DecodeSubMessage (NewDecoder (mapSizeBytes 4 ++ r.bytes.drop 1 ++ strBytes name ++ v.bytes))
      = .ok (r, []) := by
  have e : mapSizeBytes 4 ++ r.bytes.drop 1 ++ strBytes name ++ v.bytes
      = mapSizeBytes 4 ++ ((strBytes (ascii "subject") ++ strBytes r.Subject)
      ++ ((strBytes (ascii "replyTo") ++ strBytes r.ReplyTo) ++ ((strBytes (ascii "body") ++ binBytes r.Body)
        ++ (strBytes name ++ (v.bytes ++ []))))) := by
    rw [SubMessage_bytes_eq_cons]
    simp
  rw [NewDecoder, e, DecodeSubMessage_map 4 (by decide), DecodeSubMessage_loop_fields 1 _ r h,
    DecodeSubMessage_loop_unknown 0 _ _ _ hn hv h1 h2 h3, DecodeSubMessage.loop]

theorem DecodeRequestMessage_map (n : Nat) (h : n < 2 ^ 32) (t : Decoder) :
    DecodeRequestMessage (mapSizeBytes n ++ t) = DecodeRequestMessage.loop n RequestMessage.zero t := by
  rw [DecodeRequestMessage, IsNextNil_mapSize]
  dsimp only
  rw [ReadMapSize_ok _ h]

theorem DecodeRequestMessage_loop_unknown (n : Nat) (val : RequestMessage) (name : GoString) (v : Value)
    (hn : name.length < 2 ^ 32) (hv : v.WellFormed)
    (h1 : name ≠ ascii "subject") (h2 : name ≠ ascii "body") (h3 : name ≠ ascii "timeoutMs")
    (t : Decoder) :
    DecodeRequestMessage.loop (n + 1) val (strBytes name ++ (v.bytes ++ t))
      = DecodeRequestMessage.loop n val t := by
  rw [DecodeRequestMessage.loop, ReadString_ok _ hn]
  dsimp only
  rw [if_neg h1, if_neg h2, if_neg h3, Skip_ok _ hv]

theorem DecodeRequestMessage_loop_fields (n : Nat) (val r : RequestMessage) (h : r.Valid) (t : Decoder) :
    DecodeRequestMessage.loop (n + 3) val
        ((strBytes (ascii "subject") ++ strBytes r.Subject) ++ ((strBytes (ascii "body") ++ binBytes r.Body)
          ++ ((strBytes (ascii "timeoutMs") ++ u32Bytes r.TimeoutMs) ++ t)))
      = DecodeRequestMessage.loop n r t := by
  obtain ⟨h1, h2, h3⟩ := h
  rw [List.append_assoc, DecodeRequestMessage_loop_Subject _ _ _ h1, List.append_assoc,
    DecodeRequestMessage_loop_Body _ _ _ h2, List.append_assoc, DecodeRequestMessage_loop_TimeoutMs _ _ _ h3]

theorem DecodeRequestMessage_loop_cut (val r : RequestMessage) (h : r.Valid) (k : Nat)
    (hk : k < (strBytes (ascii "subject") ++ strBytes r.Subject).length
            + ((strBytes (ascii "body") ++ binBytes r.Body).length
            + (strBytes (ascii "timeoutMs") ++ u32Bytes r.TimeoutMs).length)) :
    DecodeRequestMessage.loop 3 val
        (((strBytes (ascii "subject") ++ strBytes r.Subject) ++ ((strBytes (ascii "body") ++ binBytes r.Body)
          ++ (strBytes (ascii "timeoutMs") ++ u32Bytes r.TimeoutMs))).take k)
      = .error errEOF := by
  obtain ⟨h1, h2, h3⟩ := h
  rw [take_append_cases]
  split
  · next c1 => exact DecodeRequestMessage_loop_Subject_cut _ _ _ h1 _ c1
  · next c1 =>
    rw [List.append_assoc, DecodeRequestMessage_loop_Subject _ _ _ h1, take_append_cases]
    split
    · next c2 => exact DecodeRequestMessage_loop_Body_cut _ _ _ h2 _ c2
    · next c2 =>
      rw [List.append_assoc, DecodeRequestMessage_loop_Body _ _ _ h2]
      exact DecodeRequestMessage_loop_TimeoutMs_cut _ _ _ h3 _ (by omega)

theorem RequestMessage_bytes_eq_cons (o : RequestMessage) :
    o.bytes = byte 0x83 :: ((strBytes (ascii "subject") ++ strBytes o.Subject)
      ++ ((strBytes (ascii "body") ++ binBytes o.Body) ++ (strBytes (ascii "timeoutMs") ++ u32Bytes o.TimeoutMs))) := by
  rw [RequestMessage_bytes_eq]
  simp [mapSizeBytes]

theorem DecodeRequestMessage_bytes_append (r : RequestMessage) (h : r.Valid) (t : Decoder) :
    DecodeRequestMessage (r.bytes ++ t) = .ok (r, t) := by
  have e : r.bytes ++ t = mapSizeBytes 3 ++ ((strBytes (ascii "subject") ++ strBytes r.Subject)
      ++ ((strBytes (ascii "body") ++ binBytes r.Body) ++ ((strBytes (ascii "timeoutMs") ++ u32Bytes r.TimeoutMs) ++ t))) := by
    rw [RequestMessage_bytes_eq_cons]
    simp [mapSizeBytes]
  rw [e, DecodeRequestMessage_map 3 (by decide), DecodeRequestMessage_loop_fields 0 _ r h, DecodeRequestMessage.loop]

theorem DecodeRequestMessage_bytes_cut (r : RequestMessage) (h : r.Valid) (k : Nat) (hk : k < r.bytes.length) :
    DecodeRequestMessage (r.bytes.take k) = .error errEOF := by
  rw [RequestMessage_bytes_eq_cons] at hk ⊢
  cases k with
  | zero => rfl
  | succ k =>
    rw [List.take_succ_cons]
    have e : ∀ t : List Byte, byte 0x83 :: t = mapSizeBytes 3 ++ t := fun _ => rfl
    rw [e, DecodeRequestMessage_map 3 (by decide)]
    apply DecodeRequestMessage_loop_cut _ _ h
    simp only [List.length_cons, List.length_append] at hk ⊢
    omega

theorem DecodeRequestMessage_extra_field (r : RequestMessage) (h : r.Valid) (name : GoString) (v : Value)
    (hn : name.length < 2 ^ 32) (hv : v.WellFormed)
    (h1 : name ≠ ascii "subject") (h2 : name ≠ ascii "body") (h3 : name ≠ ascii "timeoutMs") :
    DecodeRequestMessage (NewDecoder (mapSizeBytes 4 ++ r.bytes.drop 1 ++ strBytes name ++ v.bytes))
      = .ok (r, []) := by
  have e : mapSizeBytes 4 ++ r.bytes.drop 1 ++ strBytes name ++ v.bytes
      = mapSizeBytes 4 ++ ((strBytes (ascii "subject") ++ strBytes r.Subject)
      ++ ((strBytes (ascii "body") ++ binBytes r.Body) ++ ((strBytes (ascii "timeoutMs") ++ u32Bytes r.TimeoutMs)
        ++ (strBytes name ++ (v.bytes ++ []))))) := by
    rw [RequestMessage_bytes_eq_cons]
    simp
  rw [NewDecoder, e, DecodeRequestMessage_map 4 (by decide), DecodeRequestMessage_loop_fields 1 _ r h,
    DecodeRequestMessage_loop_unknown 0 _ _ _ hn hv h1 h2 h3, DecodeRequestMessage.loop]

/-! ## Properties of the codec -/

/-- C1 (round trip): for every valid record of each of the four shapes, decoding
the bytes produced by its Encode with the matching Decode function returns no
error and a record equal to it, with every byte consumed. -/
theorem c1_round_trip (p : PubMessage) (q : ReplyMessage) (r : RequestMessage)
    (s : SubMessage) (hp : p.Valid) (hq : q.Valid) (hr : r.Valid) (hs : s.Valid) :
    DecodePubMessage (NewDecoder p.bytes) = .ok (p, [])
      ∧ DecodeReplyMessage (NewDecoder q.bytes) = .ok (q, [])
      ∧ DecodeRequestMessage (NewDecoder r.bytes) = .ok (r, [])
      ∧ DecodeSubMessage (NewDecoder s.bytes) = .ok (s, []) := by
  have h1 := DecodePubMessage_bytes_append p hp []
  have h2 := DecodeReplyMessage_bytes_append q hq []
  have h3 := DecodeRequestMessage_bytes_append r hr []
  have h4 := DecodeSubMessage_bytes_append s hs []
  rw [List.append_nil] at h1 h2 h3 h4
  exact ⟨h1, h2, h3, h4⟩

/-- The round trip on the sample records. -/
theorem c1_round_trip_witness :
    DecodePubMessage (NewDecoder samplePub.bytes) = .ok (samplePub, [])
      ∧ DecodeReplyMessage (NewDecoder sampleReply.bytes) = .ok (sampleReply, [])
      ∧ DecodeRequestMessage (NewDecoder sampleRequest.bytes) = .ok (sampleRequest, [])
      ∧ DecodeSubMessage (NewDecoder sampleSub.bytes) = .ok (sampleSub, []) :=
  c1_round_trip samplePub sampleReply sampleRequest sampleSub
    (by decide) (by decide) (by decide) (by decide)

/-- C2 (unknown-field tolerance): for each of the four Decode functions, every
valid record and every field name the decoder does not recognize, with any
well-formed value, decoding a map whose header declares four entries and that
carries the record's three known fields followed by the extra name/value pair
succeeds and returns exactly the record. -/
theorem c2_unknown_field_skipped (p : PubMessage) (q : ReplyMessage) (r : RequestMessage)
    (s : SubMessage) (name : GoString) (v : Value)
    (hp : p.Valid) (hq : q.Valid) (hr : r.Valid) (hs : s.Valid)
    (hn : name.length < 2 ^ 32) (hv : v.WellFormed) (h1 : name ≠ ascii "subject")
    (h2 : name ≠ ascii "body") :
    (name ≠ ascii "replyTo" →
        DecodePubMessage
            (NewDecoder (mapSizeBytes 4 ++ p.bytes.drop 1 ++ strBytes name ++ v.bytes))
          = .ok (p, [])
        ∧ DecodeReplyMessage
            (NewDecoder (mapSizeBytes 4 ++ q.bytes.drop 1 ++ strBytes name ++ v.bytes))
          = .ok (q, [])
        ∧ DecodeSubMessage
            (NewDecoder (mapSizeBytes 4 ++ s.bytes.drop 1 ++ strBytes name ++ v.bytes))
          = .ok (s, []))
      ∧ (name ≠ ascii "timeoutMs" →
        DecodeRequestMessage
            (NewDecoder (mapSizeBytes 4 ++ r.bytes.drop 1 ++ strBytes name ++ v.bytes))
          = .ok (r, [])) :=
  ⟨fun h3 => ⟨DecodePubMessage_extra_field p hp name v hn hv h1 h3 h2,
      DecodeReplyMessage_extra_field q hq name v hn hv h1 h3 h2,
      DecodeSubMessage_extra_field s hs name v hn hv h1 h3 h2⟩,
    fun h3 => DecodeRequestMessage_extra_field r hr name v hn hv h1 h2 h3⟩

/-- The sample records with an extra field "traceId" carrying a string. -/
theorem c2_unknown_field_skipped_witness :
    DecodePubMessage (NewDecoder (mapSizeBytes 4 ++ samplePub.bytes.drop 1
        ++ strBytes (ascii "traceId") ++ (Value.str (ascii "abc")).bytes)) = .ok (samplePub, [])
      ∧ DecodeRequestMessage (NewDecoder (mapSizeBytes 4 ++ sampleRequest.bytes.drop 1
        ++ strBytes (ascii "traceId") ++ (Value.str (ascii "abc")).bytes))
          = .ok (sampleRequest, []) :=
  have h := c2_unknown_field_skipped samplePub sampleReply sampleRequest sampleSub
    (ascii "traceId") (Value.str (ascii "abc")) (by decide) (by decide) (by decide) (by decide)
    (by decide) (by decide) (by decide) (by decide)
  ⟨(h.1 (by decide)).1, h.2 (by decide)⟩

/-- C3 (nil sentinel): each of the four Decode functions, applied to bytes whose
next value is the nil marker, returns the zero-value record (empty Subject,
empty ReplyTo, empty Body, TimeoutMs 0) and no error; only the marker is consumed. -/
theorem c3_nil_sentinel (t : List Byte) :
    DecodePubMessage (NewDecoder (nilBytes ++ t))
        = .ok ({ Subject := [], ReplyTo := [], Body := [] }, t)
      ∧ DecodeReplyMessage (NewDecoder (nilBytes ++ t))
        = .ok ({ Subject := [], ReplyTo := [], Body := [] }, t)
      ∧ DecodeRequestMessage (NewDecoder (nilBytes ++ t))
        = .ok ({ Subject := [], Body := [], TimeoutMs := 0 }, t)
      ∧ DecodeSubMessage (NewDecoder (nilBytes ++ t))
        = .ok ({ Subject := [], ReplyTo := [], Body := [] }, t) :=
  ⟨rfl, rfl, rfl, rfl⟩

/-- C4 (truncation): for every valid record of each shape and every proper
prefix of the bytes produced by its Encode (the empty sequence included), the
matching Decode function returns an error, the reader's end-of-input error. -/
theorem c4_truncated_input_fails (p : PubMessage) (q : ReplyMessage) (r : RequestMessage)
    (s : SubMessage) (k : Nat) (hp : p.Valid) (hq : q.Valid) (hr : r.Valid) (hs : s.Valid) :
    (k < p.bytes.length → DecodePubMessage (NewDecoder (p.bytes.take k)) = .error errEOF)
      ∧ (k < q.bytes.length → DecodeReplyMessage (NewDecoder (q.bytes.take k)) = .error errEOF)
      ∧ (k < r.bytes.length →
          DecodeRequestMessage (NewDecoder (r.bytes.take k)) = .error errEOF)
      ∧ (k < s.bytes.length → DecodeSubMessage (NewDecoder (s.bytes.take k)) = .error errEOF) :=
  ⟨DecodePubMessage_bytes_cut p hp k, DecodeReplyMessage_bytes_cut q hq k,
    DecodeRequestMessage_bytes_cut r hr k, DecodeSubMessage_bytes_cut s hs k⟩

/-- The sample records cut after 20 bytes. -/
theorem c4_truncated_input_fails_witness :
    20 < samplePub.bytes.length
      ∧ DecodePubMessage (NewDecoder (samplePub.bytes.take 20)) = .error errEOF
      ∧ DecodeReplyMessage (NewDecoder (sampleReply.bytes.take 20)) = .error errEOF
      ∧ DecodeRequestMessage (NewDecoder (sampleRequest.bytes.take 20)) = .error errEOF
      ∧ DecodeSubMessage (NewDecoder (sampleSub.bytes.take 20)) = .error errEOF :=
  have h := c4_truncated_input_fails samplePub sampleReply sampleRequest sampleSub 20
    (by decide) (by decide) (by decide) (by decide)
  ⟨by decide, h.1 (by decide), h.2.1 (by decide), h.2.2.1 (by decide), h.2.2.2 (by decide)⟩

/-! ## Properties of the dispatchers and senders -/

theorem DecodePubMessage_bytes (p : PubMessage) (hp : p.Valid) :
    DecodePubMessage (NewDecoder p.bytes) = .ok (p, []) := by
  have h := DecodePubMessage_bytes_append p hp []
  rwa [List.append_nil] at h

theorem DecodeRequestMessage_bytes (r : RequestMessage) (hr : r.Valid) :
    DecodeRequestMessage (NewDecoder r.bytes) = .ok (r, []) := by
  have h := DecodeRequestMessage_bytes_append r hr []
  rwa [List.append_nil] at h

theorem DecodeReplyMessage_bytes (q : ReplyMessage) (hq : q.Valid) :
    DecodeReplyMessage (NewDecoder q.bytes) = .ok (q, []) := by
  have h := DecodeReplyMessage_bytes_append q hq []
  rwa [List.append_nil] at h

theorem DecodeSubMessage_bytes (s : SubMessage) (hs : s.Valid) :
    DecodeSubMessage (NewDecoder s.bytes) = .ok (s, []) := by
  have h := DecodeSubMessage_bytes_append s hs []
  rwa [List.append_nil] at h

/-- The Publish case of MessagingReceiver.Dispatch on a decodable argument. -/
theorem MessagingReceiver.Dispatch_Publish {σ : Type} (ctx : Context) (svc : Messaging σ)
    (arg : List Byte) (x : σ) (v : PubMessage) (rest : Decoder)
    (hd : DecodePubMessage (NewDecoder arg) = .ok (v, rest)) :
    MessagingReceiver.Dispatch ctx svc ⟨ascii "Publish", arg⟩ x
      = match svc.Publish ctx v x with
        | (some err, x) => (some (.error err), x)
        | (none, x) => (some (.ok ⟨ascii "Messaging.Publish", []⟩), x) := by
  unfold MessagingReceiver.Dispatch
  dsimp only
  rw [if_pos rfl, hd]

/-- The Request case of MessagingReceiver.Dispatch on a decodable argument. -/
theorem MessagingReceiver.Dispatch_Request {σ : Type} (ctx : Context) (svc : Messaging σ)
    (arg : List Byte) (x : σ) (v : RequestMessage) (rest : Decoder)
    (hd : DecodeRequestMessage (NewDecoder arg) = .ok (v, rest)) :
    MessagingReceiver.Dispatch ctx svc ⟨ascii "Request", arg⟩ x
      = match svc.Request ctx v x with
        | ((_, some err), x) => (some (.error err), x)
        | ((none, none), x) => (none, x)
        | ((some resp, none), x) => (some (.ok ⟨ascii "Messaging.Request", resp.bytes⟩), x) := by
  unfold MessagingReceiver.Dispatch
  dsimp only
  rw [if_neg (by decide), if_pos rfl, hd]
  rfl

/-- The HandleMessage case of MessageSubscriberReceiver.Dispatch on a decodable
argument. -/
theorem MessageSubscriberReceiver.Dispatch_HandleMessage {σ : Type} (ctx : Context)
    (svc : MessageSubscriber σ) (arg : List Byte) (x : σ) (v : SubMessage) (rest : Decoder)
    (hd : DecodeSubMessage (NewDecoder arg) = .ok (v, rest)) :
    MessageSubscriberReceiver.Dispatch ctx svc ⟨ascii "HandleMessage", arg⟩ x
      = match svc.HandleMessage ctx v x with
        | (some err, x) => (.error err, x)
        | (none, x) => (.ok ⟨ascii "MessageSubscriber.HandleMessage", []⟩, x) := by
  unfold MessageSubscriberReceiver.Dispatch
  dsimp only
  rw [if_pos rfl, hd]

/-- C5 (dispatch miss): for every method name other than "HandleMessage",
MessageSubscriberReceiver.Dispatch returns no message and the MethodNotHandled
error carrying "MessageSubscriber." followed by the name; for every name other
than "Publish" and "Request", MessagingReceiver.Dispatch returns no message and
the MethodNotHandled error carrying "Messaging." followed by the name.  Whatever
the argument bytes and the service, the service's state is left as it was: no
handler is invoked. -/
theorem c5_dispatch_miss {σ ρ : Type} (ctx : Context) (m : GoString) (arg : List Byte)
    (sub : MessageSubscriber σ) (svc : Messaging ρ) (x : σ) (y : ρ) :
    (m ≠ ascii "HandleMessage" →
        MessageSubscriberReceiver.Dispatch ctx sub ⟨m, arg⟩ x
          = (.error (NewRpcError (ascii "MethodNotHandled") (ascii "MessageSubscriber." ++ m)), x))
      ∧ (m ≠ ascii "Publish" → m ≠ ascii "Request" →
        MessagingReceiver.Dispatch ctx svc ⟨m, arg⟩ y
          = (some (.error (NewRpcError (ascii "MethodNotHandled") (ascii "Messaging." ++ m))),
              y)) := by
  constructor
  · intro h
    unfold MessageSubscriberReceiver.Dispatch
    dsimp only
    rw [if_neg h]
  · intro h1 h2
    unfold MessagingReceiver.Dispatch
    dsimp only
    rw [if_neg h1, if_neg h2]

/-- Dispatching "Subscribe" with a well-formed argument to the counting services:
the error names the method and no invocation is counted. -/
theorem c5_dispatch_miss_witness :
    MessageSubscriberReceiver.Dispatch ⟨0⟩ countingSubscriber
        ⟨ascii "Subscribe", sampleSub.bytes⟩ 0
        = (.error (Error.rpc (ascii "MethodNotHandled") (ascii "MessageSubscriber.Subscribe")), 0)
      ∧ MessagingReceiver.Dispatch ⟨0⟩ countingMessaging
        ⟨ascii "Subscribe", samplePub.bytes⟩ 0
        = (some (.error (Error.rpc (ascii "MethodNotHandled") (ascii "Messaging.Subscribe"))),
            0) :=
  have h := c5_dispatch_miss ⟨0⟩ (ascii "Subscribe") sampleSub.bytes countingSubscriber
    countingMessaging 0 0
  have h' := c5_dispatch_miss ⟨0⟩ (ascii "Subscribe") samplePub.bytes countingSubscriber
    countingMessaging 0 0
  ⟨h.1 (by decide), h'.2 (by decide) (by decide)⟩

/-- C6, as stated, fails: with a transport whose Send returns the error
"link down" (and no bytes), Publish and HandleMessage return a nil error, and
Request returns the decoder's end-of-input error, not the transport's; with a
transport that fails and hands back a nil marker, Request returns the zero-value
reply and no error, so the response bytes were decoded. -/
theorem c6_counterexample :
    (failingTransport.Send ⟨0⟩ ⟨ascii "Messaging.Publish", samplePub.bytes⟩ ()).1.2
        = some (Error.app "link down")
      ∧ (MessagingSender.Publish ⟨failingTransport⟩ ⟨0⟩ samplePub ()).1 = none
      ∧ (MessageSubscriberSender.HandleMessage ⟨failingTransport⟩ ⟨0⟩ sampleSub ()).1 = none
      ∧ (MessagingSender.Request ⟨failingTransport⟩ ⟨0⟩ sampleRequest ()).1 = .error errEOF
      ∧ (MessagingSender.Request ⟨failingNilTransport⟩ ⟨0⟩ sampleRequest ()).1
        = .ok ReplyMessage.zero := by
  decide

/-- C6 (amended): the senders drop the transport's error.  For every transport,
whatever its Send returns, Publish and HandleMessage return a nil error, and
Request returns the outcome of DecodeReplyMessage on the bytes Send returned:
the decoded reply and no error, or the decode error. -/
theorem c6_send_error_dropped {τ : Type} (t : Transport τ) (ctx : Context) (p : PubMessage)
    (r : RequestMessage) (s : SubMessage) (st : τ) :
    (MessagingSender.Publish ⟨t⟩ ctx p st).1 = none
      ∧ (MessageSubscriberSender.HandleMessage ⟨t⟩ ctx s st).1 = none
      ∧ (MessagingSender.Request ⟨t⟩ ctx r st).1
        = (DecodeReplyMessage (NewDecoder
            (t.Send ctx ⟨ascii "Messaging.Request", r.bytes⟩ st).1.1)).map Prod.fst := by
  refine ⟨rfl, rfl, ?_⟩
  unfold MessagingSender.Request
  dsimp only
  rw [← RequestMessage.bytes]
  cases h : DecodeReplyMessage (NewDecoder (t.Send ctx ⟨ascii "Messaging.Request", r.bytes⟩ st).1.1) with
  | error e => rfl
  | ok v => rfl

/-- C7, as stated, fails: the message Publish hands to the transport carries the
method "Messaging.Publish", which is none of the three names, and
MessagingReceiver.Dispatch on that very message takes the MethodNotHandled
branch without invoking the handler. -/
theorem c7_counterexample :
    (MessagingSender.Publish ⟨recordingTransport⟩ ⟨0⟩ samplePub []).2
        = [⟨ascii "Messaging.Publish", samplePub.bytes⟩]
      ∧ ascii "Messaging.Publish" ≠ ascii "Publish"
      ∧ ascii "Messaging.Publish" ≠ ascii "Request"
      ∧ ascii "Messaging.Publish" ≠ ascii "HandleMessage"
      ∧ MessagingReceiver.Dispatch ⟨0⟩ countingMessaging
          ⟨ascii "Messaging.Publish", samplePub.bytes⟩ 0
        = (some (.error (Error.rpc (ascii "MethodNotHandled")
            (ascii "Messaging.Messaging.Publish"))), 0) := by
  decide

/-- C7 (amended): each sender hands the transport the interface-qualified form
of a wire-visible name: "Messaging." followed by "Publish" or "Request", and
"MessageSubscriber." followed by "HandleMessage", with the encoded argument.
The corresponding receiver's Dispatch accepts the unqualified name: given that
name and the sender's bytes of a valid record, it does not take the
MethodNotHandled branch but invokes the handler with the sender's argument. -/
theorem c7_qualified_method_names {σ ρ : Type} (ctx : Context) (p : PubMessage)
    (r : RequestMessage) (s : SubMessage) (log : List Message)
    (sub : MessageSubscriber σ) (svc : Messaging ρ) (x : σ) (y : ρ)
    (hp : p.Valid) (hr : r.Valid) (hs : s.Valid) :
    (MessagingSender.Publish ⟨recordingTransport⟩ ctx p log).2
        = log ++ [⟨ascii "Messaging." ++ ascii "Publish", p.bytes⟩]
      ∧ (MessagingSender.Request ⟨recordingTransport⟩ ctx r log).2
        = log ++ [⟨ascii "Messaging." ++ ascii "Request", r.bytes⟩]
      ∧ (MessageSubscriberSender.HandleMessage ⟨recordingTransport⟩ ctx s log).2
        = log ++ [⟨ascii "MessageSubscriber." ++ ascii "HandleMessage", s.bytes⟩]
      ∧ (MessagingReceiver.Dispatch ctx svc ⟨ascii "Publish", p.bytes⟩ y).2
        = (svc.Publish ctx p y).2
      ∧ (MessagingReceiver.Dispatch ctx svc ⟨ascii "Request", r.bytes⟩ y).2
        = (svc.Request ctx r y).2
      ∧ (MessageSubscriberReceiver.Dispatch ctx sub ⟨ascii "HandleMessage", s.bytes⟩ x).2
        = (sub.HandleMessage ctx s x).2 := by
  refine ⟨rfl, rfl, rfl, ?_, ?_, ?_⟩
  · rw [MessagingReceiver.Dispatch_Publish ctx svc _ y p [] (DecodePubMessage_bytes p hp)]
    generalize svc.Publish ctx p y = res
    obtain ⟨_ | e, y'⟩ := res <;> rfl
  · rw [MessagingReceiver.Dispatch_Request ctx svc _ y r [] (DecodeRequestMessage_bytes r hr)]
    generalize svc.Request ctx r y = res
    obtain ⟨⟨_ | resp, _ | e⟩, y'⟩ := res <;> rfl
  · rw [MessageSubscriberReceiver.Dispatch_HandleMessage ctx sub _ x s []
      (DecodeSubMessage_bytes s hs)]
    generalize sub.HandleMessage ctx s x = res
    obtain ⟨_ | e, x'⟩ := res <;> rfl

/-- The sample records through the recording transport and the counting
services: the qualified names are sent, the unqualified ones reach a handler. -/
theorem c7_qualified_method_names_witness :
    (MessagingSender.Request ⟨recordingTransport⟩ ⟨0⟩ sampleRequest []).2
        = [] ++ [⟨ascii "Messaging." ++ ascii "Request", sampleRequest.bytes⟩]
      ∧ (MessagingReceiver.Dispatch ⟨0⟩ countingMessaging
          ⟨ascii "Request", sampleRequest.bytes⟩ 0).2
        = (countingMessaging.Request ⟨0⟩ sampleRequest 0).2 :=
  have h := c7_qualified_method_names ⟨0⟩ samplePub sampleRequest sampleSub []
    countingSubscriber countingMessaging 0 0 (by decide) (by decide) (by decide)
  ⟨h.2.1, h.2.2.2.2.1⟩

/-- C8 (request dispatch returns the encoded reply): when the argument bytes
decode to a request q and the handler's Request on q returns a non-nil reply r
and no error, MessagingReceiver.Dispatch with method "Request" returns no error
and a message whose Arg is exactly the encoding of r, and DecodeReplyMessage of
that Arg yields r. -/
theorem c8_request_reply_encoded {σ : Type} (ctx : Context) (svc : Messaging σ)
    (arg : List Byte) (q : RequestMessage) (rest : Decoder) (r : ReplyMessage) (x x' : σ)
    (hd : DecodeRequestMessage (NewDecoder arg) = .ok (q, rest))
    (hh : svc.Request ctx q x = ((some r, none), x')) (hr : r.Valid) :
    MessagingReceiver.Dispatch ctx svc ⟨ascii "Request", arg⟩ x
        = (some (.ok ⟨ascii "Messaging.Request", r.bytes⟩), x')
      ∧ DecodeReplyMessage (NewDecoder r.bytes) = .ok (r, []) := by
  refine ⟨?_, DecodeReplyMessage_bytes r hr⟩
  rw [MessagingReceiver.Dispatch_Request ctx svc arg x q rest hd, hh]

/-- The sample request dispatched to the counting service, which answers with
the request's subject and body. -/
theorem c8_request_reply_encoded_witness :
    MessagingReceiver.Dispatch ⟨0⟩ countingMessaging ⟨ascii "Request", sampleRequest.bytes⟩ 0
        = (some (.ok ⟨ascii "Messaging.Request",
            ReplyMessage.bytes ⟨ascii "orders.get", [], [byte 7]⟩⟩), 1)
      ∧ DecodeReplyMessage (NewDecoder (ReplyMessage.bytes ⟨ascii "orders.get", [], [byte 7]⟩))
        = .ok (⟨ascii "orders.get", [], [byte 7]⟩, []) :=
  c8_request_reply_encoded ⟨0⟩ countingMessaging sampleRequest.bytes sampleRequest []
    ⟨ascii "orders.get", [], [byte 7]⟩ 0 1 (by decide) (by decide) (by decide)

/-- C9 (void dispatch success): for every valid PubMessage p and a handler whose
Publish on p returns no error, MessagingReceiver.Dispatch with method "Publish"
and the encoding of p invokes the handler with exactly p (the state is the one
that call leaves) and returns no error and a message whose Arg is empty; the
same holds for MessageSubscriberReceiver.Dispatch with "HandleMessage" and an
encoded SubMessage. -/
theorem c9_void_dispatch_success {σ ρ : Type} (ctx : Context) (sub : MessageSubscriber σ)
    (svc : Messaging ρ) (p : PubMessage) (s : SubMessage) (x x' : σ) (y y' : ρ)
    (hp : p.Valid) (hs : s.Valid) :
    (svc.Publish ctx p y = (none, y') →
        MessagingReceiver.Dispatch ctx svc ⟨ascii "Publish", p.bytes⟩ y
          = (some (.ok ⟨ascii "Messaging.Publish", []⟩), y'))
      ∧ (sub.HandleMessage ctx s x = (none, x') →
        MessageSubscriberReceiver.Dispatch ctx sub ⟨ascii "HandleMessage", s.bytes⟩ x
          = (.ok ⟨ascii "MessageSubscriber.HandleMessage", []⟩, x')) := by
  constructor
  · intro h
    rw [MessagingReceiver.Dispatch_Publish ctx svc _ y p [] (DecodePubMessage_bytes p hp), h]
  · intro h
    rw [MessageSubscriberReceiver.Dispatch_HandleMessage ctx sub _ x s []
      (DecodeSubMessage_bytes s hs), h]

/-- The sample records dispatched to the counting services: an empty result
buffer, no error, one invocation. -/
theorem c9_void_dispatch_success_witness :
    MessagingReceiver.Dispatch ⟨0⟩ countingMessaging ⟨ascii "Publish", samplePub.bytes⟩ 0
        = (some (.ok ⟨ascii "Messaging.Publish", []⟩), 1)
      ∧ MessageSubscriberReceiver.Dispatch ⟨0⟩ countingSubscriber
          ⟨ascii "HandleMessage", sampleSub.bytes⟩ 0
        = (.ok ⟨ascii "MessageSubscriber.HandleMessage", []⟩, 1) :=
  have h := c9_void_dispatch_success ⟨0⟩ countingSubscriber countingMessaging samplePub
    sampleSub 0 1 0 1 (by decide) (by decide)
  ⟨h.1 (by decide), h.2 (by decide)⟩

/-- C10 (handler errors are propagated unchanged): for each handled method
("HandleMessage", "Publish", "Request") and every argument that decodes
successfully, if the handler returns the error e then Dispatch returns no
message and exactly e, unwrapped; the state is the one a single invocation of
the handler on the decoded record leaves. -/
theorem c10_handler_error_propagated {σ ρ : Type} (ctx : Context)
    (sub : MessageSubscriber σ) (svc : Messaging ρ) (arg : List Byte) (e : Error)
    (x x' : σ) (y y' : ρ) :
    (∀ v rest, DecodeSubMessage (NewDecoder arg) = .ok (v, rest) →
        sub.HandleMessage ctx v x = (some e, x') →
        MessageSubscriberReceiver.Dispatch ctx sub ⟨ascii "HandleMessage", arg⟩ x
          = (.error e, x'))
      ∧ (∀ v rest, DecodePubMessage (NewDecoder arg) = .ok (v, rest) →
        svc.Publish ctx v y = (some e, y') →
        MessagingReceiver.Dispatch ctx svc ⟨ascii "Publish", arg⟩ y = (some (.error e), y'))
      ∧ (∀ v rest resp, DecodeRequestMessage (NewDecoder arg) = .ok (v, rest) →
        svc.Request ctx v y = ((resp, some e), y') →
        MessagingReceiver.Dispatch ctx svc ⟨ascii "Request", arg⟩ y
          = (some (.error e), y')) := by
  refine ⟨?_, ?_, ?_⟩
  · intro v rest hd hh
    rw [MessageSubscriberReceiver.Dispatch_HandleMessage ctx sub arg x v rest hd, hh]
  · intro v rest hd hh
    rw [MessagingReceiver.Dispatch_Publish ctx svc arg y v rest hd, hh]
  · intro v rest resp hd hh
    rw [MessagingReceiver.Dispatch_Request ctx svc arg y v rest hd, hh]
    cases resp <;> rfl

/-- The sample records dispatched to the failing services: the handler's error
"denied" comes back as it is, after one invocation. -/
theorem c10_handler_error_propagated_witness :
    MessageSubscriberReceiver.Dispatch ⟨0⟩ failingSubscriber
        ⟨ascii "HandleMessage", sampleSub.bytes⟩ 0 = (.error (Error.app "denied"), 1)
      ∧ MessagingReceiver.Dispatch ⟨0⟩ failingMessaging ⟨ascii "Publish", samplePub.bytes⟩ 0
        = (some (.error (Error.app "denied")), 1)
      ∧ MessagingReceiver.Dispatch ⟨0⟩ failingMessaging
          ⟨ascii "Request", sampleRequest.bytes⟩ 0
        = (some (.error (Error.app "denied")), 1) :=
  ⟨(c10_handler_error_propagated ⟨0⟩ failingSubscriber failingMessaging sampleSub.bytes
      (Error.app "denied") 0 1 0 1).1 sampleSub [] (by decide) (by decide),
    (c10_handler_error_propagated ⟨0⟩ failingSubscriber failingMessaging samplePub.bytes
      (Error.app "denied") 0 1 0 1).2.1 samplePub [] (by decide) (by decide),
    (c10_handler_error_propagated ⟨0⟩ failingSubscriber failingMessaging sampleRequest.bytes
      (Error.app "denied") 0 1 0 1).2.2 sampleRequest [] none (by decide) (by decide)⟩

/-! ## Decode failures, responses, layout -/

/-- C11 (decode failure halts dispatch): for each handled method name, if
decoding the argument bytes into the method's record type fails with the error
e, Dispatch returns no message and the error e, and the handler is not invoked:
the service's state is left as it was. -/
theorem c11_decode_failure_halts {σ ρ : Type} (ctx : Context) (sub : MessageSubscriber σ)
    (svc : Messaging ρ) (arg : List Byte) (e : Error) (x : σ) (y : ρ) :
    (DecodeSubMessage (NewDecoder arg) = .error e →
        MessageSubscriberReceiver.Dispatch ctx sub ⟨ascii "HandleMessage", arg⟩ x
          = (.error e, x))
      ∧ (DecodePubMessage (NewDecoder arg) = .error e →
        MessagingReceiver.Dispatch ctx svc ⟨ascii "Publish", arg⟩ y = (some (.error e), y))
      ∧ (DecodeRequestMessage (NewDecoder arg) = .error e →
        MessagingReceiver.Dispatch ctx svc ⟨ascii "Request", arg⟩ y
          = (some (.error e), y)) := by
  refine ⟨?_, ?_, ?_⟩
  · intro hd
    unfold MessageSubscriberReceiver.Dispatch
    dsimp only
    rw [if_pos rfl, hd]
  · intro hd
    unfold MessagingReceiver.Dispatch
    dsimp only
    rw [if_pos rfl, hd]
  · intro hd
    unfold MessagingReceiver.Dispatch
    dsimp only
    rw [if_neg (by decide), if_pos rfl, hd]

/-- A sample record cut after 9 bytes, dispatched to the counting services: the
decoder's error comes back and no invocation is counted. -/
theorem c11_decode_failure_halts_witness :
    MessageSubscriberReceiver.Dispatch ⟨0⟩ countingSubscriber
        ⟨ascii "HandleMessage", sampleSub.bytes.take 9⟩ 0 = (.error errEOF, 0)
      ∧ MessagingReceiver.Dispatch ⟨0⟩ countingMessaging
          ⟨ascii "Publish", sampleSub.bytes.take 9⟩ 0 = (some (.error errEOF), 0)
      ∧ MessagingReceiver.Dispatch ⟨0⟩ countingMessaging
          ⟨ascii "Request", sampleSub.bytes.take 9⟩ 0 = (some (.error errEOF), 0) :=
  have h := c11_decode_failure_halts ⟨0⟩ countingSubscriber countingMessaging
    (sampleSub.bytes.take 9) errEOF 0 0
  ⟨h.1 (by decide), h.2.1 (by decide), h.2.2 (by decide)⟩

/-- The Request sender, with the two-pass encode folded into `bytes`. -/
theorem MessagingSender.Request_unfold {τ : Type} (t : Transport τ) (ctx : Context)
    (arg : RequestMessage) (st : τ) :
    MessagingSender.Request ⟨t⟩ ctx arg st
      = match t.Send ctx ⟨ascii "Messaging.Request", arg.bytes⟩ st with
        | ((out_buf, _), st') =>
          match DecodeReplyMessage (NewDecoder out_buf) with
          | .error err_ => (.error err_, st')
          | .ok (resp, _) => (.ok resp, st') := rfl

/-- C12 (the request sender decodes the response): for every RequestMessage and
every transport whose Send succeeds with response bytes b, MessagingSender.Request
returns DecodeReplyMessage(b): the decoded reply and no error when decoding
succeeds (so it returns r when b is the encoding of a valid ReplyMessage r), and
no reply with the decode error when decoding fails. -/
theorem c12_request_decodes_response {τ : Type} (t : Transport τ) (ctx : Context)
    (arg : RequestMessage) (b : List Byte) (st st' : τ)
    (hs : t.Send ctx ⟨ascii "Messaging.Request", arg.bytes⟩ st = ((b, none), st')) :
    (∀ r rest, DecodeReplyMessage (NewDecoder b) = .ok (r, rest) →
        MessagingSender.Request ⟨t⟩ ctx arg st = (.ok r, st'))
      ∧ (∀ e, DecodeReplyMessage (NewDecoder b) = .error e →
        MessagingSender.Request ⟨t⟩ ctx arg st = (.error e, st'))
      ∧ (∀ r : ReplyMessage, r.Valid → b = r.bytes →
        MessagingSender.Request ⟨t⟩ ctx arg st = (.ok r, st')) := by
  have key : ∀ res, DecodeReplyMessage (NewDecoder b) = res →
      MessagingSender.Request ⟨t⟩ ctx arg st
        = match res with
          | .error err_ => (.error err_, st')
          | .ok (resp, _) => (.ok resp, st') := by
    intro res hres
    rw [MessagingSender.Request_unfold, hs]
    dsimp only
    rw [hres]
  refine ⟨fun r rest hd => key _ hd, fun e hd => key _ hd, ?_⟩
  intro r hr hb
  subst hb
  exact key _ (DecodeReplyMessage_bytes r hr)

/-- The sample request sent over the replying transport: the sample reply comes
back; over the recording transport, which answers with no bytes, the decoder's
error comes back. -/
theorem c12_request_decodes_response_witness :
    MessagingSender.Request ⟨replyingTransport⟩ ⟨0⟩ sampleRequest 0 = (.ok sampleReply, 1)
      ∧ MessagingSender.Request ⟨recordingTransport⟩ ⟨0⟩ sampleRequest []
        = (.error errEOF, [⟨ascii "Messaging.Request", sampleRequest.bytes⟩]) :=
  ⟨(c12_request_decodes_response replyingTransport ⟨0⟩ sampleRequest sampleReply.bytes 0 1
      (by decide)).2.2 sampleReply (by decide) rfl,
    (c12_request_decodes_response recordingTransport ⟨0⟩ sampleRequest [] []
      [⟨ascii "Messaging.Request", sampleRequest.bytes⟩] (by decide)).2.1 errEOF (by decide)⟩

/-- C13 (wire layout): for every record, Encode writes a map header declaring
exactly 3 entries and then, in the schema's order, each field name as a string
followed by its typed value: "subject", "replyTo", "body" for PubMessage,
ReplyMessage and SubMessage, and "subject", "body", "timeoutMs" for
RequestMessage; the bytes are the wire forms of these writes in that order.  For
the PubMessage with Subject "orders.new", ReplyTo "" and Body [1, 2] the output is
the 3-entry map header, "subject"/"orders.new", "replyTo"/"", "body"/2-byte
blob.  Encode returns a nil error for every writer. -/
theorem c13_wire_layout (p : PubMessage) (q : ReplyMessage) (r : RequestMessage)
    (s : SubMessage) :
    ((p.Encode traceWriter []).2
        = [.mapSize 3, .string (ascii "subject"), .string p.Subject, .string (ascii "replyTo"),
            .string p.ReplyTo, .string (ascii "body"), .byteArray p.Body]
      ∧ (q.Encode traceWriter []).2
        = [.mapSize 3, .string (ascii "subject"), .string q.Subject, .string (ascii "replyTo"),
            .string q.ReplyTo, .string (ascii "body"), .byteArray q.Body]
      ∧ (s.Encode traceWriter []).2
        = [.mapSize 3, .string (ascii "subject"), .string s.Subject, .string (ascii "replyTo"),
            .string s.ReplyTo, .string (ascii "body"), .byteArray s.Body]
      ∧ (r.Encode traceWriter []).2
        = [.mapSize 3, .string (ascii "subject"), .string r.Subject, .string (ascii "body"),
            .byteArray r.Body, .string (ascii "timeoutMs"), .uint32 r.TimeoutMs])
      ∧ (p.bytes = mapSizeBytes 3 ++ strBytes (ascii "subject") ++ strBytes p.Subject
            ++ strBytes (ascii "replyTo") ++ strBytes p.ReplyTo
            ++ strBytes (ascii "body") ++ binBytes p.Body
        ∧ q.bytes = mapSizeBytes 3 ++ strBytes (ascii "subject") ++ strBytes q.Subject
            ++ strBytes (ascii "replyTo") ++ strBytes q.ReplyTo
            ++ strBytes (ascii "body") ++ binBytes q.Body
        ∧ s.bytes = mapSizeBytes 3 ++ strBytes (ascii "subject") ++ strBytes s.Subject
            ++ strBytes (ascii "replyTo") ++ strBytes s.ReplyTo
            ++ strBytes (ascii "body") ++ binBytes s.Body
        ∧ r.bytes = mapSizeBytes 3 ++ strBytes (ascii "subject") ++ strBytes r.Subject
            ++ strBytes (ascii "body") ++ binBytes r.Body
            ++ strBytes (ascii "timeoutMs") ++ u32Bytes r.TimeoutMs)
      ∧ (PubMessage.bytes ⟨ascii "orders.new", [], [byte 1, byte 2]⟩
          = [byte 0x83] ++ (byte 0xa7 :: ascii "subject") ++ (byte 0xaa :: ascii "orders.new")
            ++ (byte 0xa7 :: ascii "replyTo") ++ [byte 0xa0]
            ++ (byte 0xa4 :: ascii "body") ++ [byte 0xc4, byte 2, byte 1, byte 2])
      ∧ (∀ (ω : Type) (w : Writer ω) (st : ω),
          (p.Encode w st).1 = none ∧ (q.Encode w st).1 = none
            ∧ (r.Encode w st).1 = none ∧ (s.Encode w st).1 = none) :=
  ⟨⟨rfl, rfl, rfl, rfl⟩,
    ⟨PubMessage_bytes_eq p, ReplyMessage_bytes_eq q, SubMessage_bytes_eq s,
      RequestMessage_bytes_eq r⟩,
    by decide, fun _ _ _ => ⟨rfl, rfl, rfl, rfl⟩⟩

/-- C15 (single capability identifier): MessageSubscriberContractId and
MessagingContractId return the same string, "wasmcloud:messaging", and this is
the contract id NewProviderMessaging and NewProviderMessagingLink pass to the
transport constructor, with the link name "default" and the given link name. -/
theorem c15_single_contract_id {τ : Type} (ToProvider : GoString → GoString → Transport τ)
    (linkName : GoString) :
    MessageSubscriberContractId = ascii "wasmcloud:messaging"
      ∧ MessagingContractId = ascii "wasmcloud:messaging"
      ∧ MessageSubscriberContractId = MessagingContractId
      ∧ (NewProviderMessaging ToProvider).transport
        = ToProvider MessagingContractId (ascii "default")
      ∧ (NewProviderMessagingLink ToProvider linkName).transport
        = ToProvider MessagingContractId linkName :=
  ⟨rfl, rfl, rfl, rfl, rfl⟩

/-! ## The two passes agree -/

theorem PubMessage_offset_eq (o : PubMessage) (buf : List Byte) :
    (o.Encode encoderWriter (NewEncoder buf)).2.byteOffset = (o.Encode sizerWriter ⟨0⟩).2.Len := by
  simp only [PubMessage.Encode, encoderWriter, sizerWriter, Sizer.Len, Encoder.SetBytes, NewEncoder,
    length_strBytes, length_binBytes, length_mapSizeBytes, length_u32Bytes]
  simp
  omega

theorem PubMessage_length_bytes (o : PubMessage) :
    o.bytes.length = (o.Encode sizerWriter ⟨0⟩).2.Len := by
  rw [PubMessage_bytes_eq]
  simp only [PubMessage.Encode, sizerWriter, Sizer.Len, List.length_append,
    length_strBytes, length_binBytes, length_mapSizeBytes, length_u32Bytes]
  simp
  omega

theorem ReplyMessage_offset_eq (o : ReplyMessage) (buf : List Byte) :
    (o.Encode encoderWriter (NewEncoder buf)).2.byteOffset = (o.Encode sizerWriter ⟨0⟩).2.Len := by
  simp only [ReplyMessage.Encode, encoderWriter, sizerWriter, Sizer.Len, Encoder.SetBytes, NewEncoder,
    length_strBytes, length_binBytes, length_mapSizeBytes, length_u32Bytes]
  simp
  omega

theorem ReplyMessage_length_bytes (o : ReplyMessage) :
    o.bytes.length = (o.Encode sizerWriter ⟨0⟩).2.Len := by
  rw [ReplyMessage_bytes_eq]
  simp only [ReplyMessage.Encode, sizerWriter, Sizer.Len, List.length_append,
    length_strBytes, length_binBytes, length_mapSizeBytes, length_u32Bytes]
  simp
  omega

theorem SubMessage_offset_eq (o : SubMessage) (buf : List Byte) :
    (o.Encode encoderWriter (NewEncoder buf)).2.byteOffset = (o.Encode sizerWriter ⟨0⟩).2.Len := by
  simp only [SubMessage.Encode, encoderWriter, sizerWriter, Sizer.Len, Encoder.SetBytes, NewEncoder,
    length_strBytes, length_binBytes, length_mapSizeBytes, length_u32Bytes]
  simp
  omega

theorem SubMessage_length_bytes (o : SubMessage) :
    o.bytes.length = (o.Encode sizerWriter ⟨0⟩).2.Len := by
  rw [SubMessage_bytes_eq]
  simp only [SubMessage.Encode, sizerWriter, Sizer.Len, List.length_append,
    length_strBytes, length_binBytes, length_mapSizeBytes, length_u32Bytes]
  simp
  omega

theorem RequestMessage_offset_eq (o : RequestMessage) (buf : List Byte) :
    (o.Encode encoderWriter (NewEncoder buf)).2.byteOffset = (o.Encode sizerWriter ⟨0⟩).2.Len := by
  simp only [RequestMessage.Encode, encoderWriter, sizerWriter, Sizer.Len, Encoder.SetBytes, NewEncoder,
    length_strBytes, length_binBytes, length_mapSizeBytes, length_u32Bytes]
  simp
  omega

theorem RequestMessage_length_bytes (o : RequestMessage) :
    o.bytes.length = (o.Encode sizerWriter ⟨0⟩).2.Len := by
  rw [RequestMessage_bytes_eq]
  simp only [RequestMessage.Encode, sizerWriter, Sizer.Len, List.length_append,
    length_strBytes, length_binBytes, length_mapSizeBytes, length_u32Bytes]
  simp
  omega

/-- C14 (the two-pass encode is exact): for every record of each shape, the
length the sizing pass reports equals the number of bytes the writing pass
writes (whatever buffer it writes into) and the length of the buffer the
two-pass idiom builds, and that buffer is exactly the record's encoding: the
wire forms of the header, names and values, with no unused or missing byte.
This is the buffer each sender hands to the transport and the buffer Dispatch
returns for "Request". -/
theorem c14_two_pass_exact {τ σ : Type} (p : PubMessage) (q : ReplyMessage)
    (r : RequestMessage) (s : SubMessage) (buf : List Byte) (t : Transport τ) (ctx : Context)
    (st : τ) (svc : Messaging σ) (arg : List Byte) (v : RequestMessage) (rest : Decoder)
    (x x' : σ) :
    ((p.Encode encoderWriter (NewEncoder buf)).2.byteOffset = (p.Encode sizerWriter ⟨0⟩).2.Len
      ∧ (q.Encode encoderWriter (NewEncoder buf)).2.byteOffset
        = (q.Encode sizerWriter ⟨0⟩).2.Len
      ∧ (r.Encode encoderWriter (NewEncoder buf)).2.byteOffset
        = (r.Encode sizerWriter ⟨0⟩).2.Len
      ∧ (s.Encode encoderWriter (NewEncoder buf)).2.byteOffset
        = (s.Encode sizerWriter ⟨0⟩).2.Len)
      ∧ (p.bytes.length = (p.Encode sizerWriter ⟨0⟩).2.Len
        ∧ q.bytes.length = (q.Encode sizerWriter ⟨0⟩).2.Len
        ∧ r.bytes.length = (r.Encode sizerWriter ⟨0⟩).2.Len
        ∧ s.bytes.length = (s.Encode sizerWriter ⟨0⟩).2.Len)
      ∧ ((MessagingSender.Publish ⟨t⟩ ctx p st).2
          = (t.Send ctx ⟨ascii "Messaging.Publish",
            mapSizeBytes 3 ++ strBytes (ascii "subject") ++ strBytes p.Subject
            ++ strBytes (ascii "replyTo") ++ strBytes p.ReplyTo
            ++ strBytes (ascii "body") ++ binBytes p.Body⟩ st).2
        ∧ (MessagingSender.Request ⟨t⟩ ctx r st).2
          = (t.Send ctx ⟨ascii "Messaging.Request",
            mapSizeBytes 3 ++ strBytes (ascii "subject") ++ strBytes r.Subject
            ++ strBytes (ascii "body") ++ binBytes r.Body
            ++ strBytes (ascii "timeoutMs") ++ u32Bytes r.TimeoutMs⟩ st).2
        ∧ (MessageSubscriberSender.HandleMessage ⟨t⟩ ctx s st).2
          = (t.Send ctx ⟨ascii "MessageSubscriber.HandleMessage",
            mapSizeBytes 3 ++ strBytes (ascii "subject") ++ strBytes s.Subject
            ++ strBytes (ascii "replyTo") ++ strBytes s.ReplyTo
            ++ strBytes (ascii "body") ++ binBytes s.Body⟩ st).2)
      ∧ (DecodeRequestMessage (NewDecoder arg) = .ok (v, rest) →
          svc.Request ctx v x = ((some q, none), x') →
          MessagingReceiver.Dispatch ctx svc ⟨ascii "Request", arg⟩ x
            = (some (.ok ⟨ascii "Messaging.Request",
            mapSizeBytes 3 ++ strBytes (ascii "subject") ++ strBytes q.Subject
            ++ strBytes (ascii "replyTo") ++ strBytes q.ReplyTo
            ++ strBytes (ascii "body") ++ binBytes q.Body⟩), x')) := by
  refine ⟨⟨PubMessage_offset_eq p buf, ReplyMessage_offset_eq q buf,
      RequestMessage_offset_eq r buf, SubMessage_offset_eq s buf⟩,
    ⟨PubMessage_length_bytes p, ReplyMessage_length_bytes q, RequestMessage_length_bytes r,
      SubMessage_length_bytes s⟩, ⟨?_, ?_, ?_⟩, ?_⟩
  · rw [← PubMessage_bytes_eq]
    rfl
  · rw [← RequestMessage_bytes_eq, MessagingSender.Request_unfold]
    generalize t.Send ctx ⟨ascii "Messaging.Request", r.bytes⟩ st = res
    obtain ⟨⟨out_buf, e⟩, st'⟩ := res
    dsimp only
    cases DecodeReplyMessage (NewDecoder out_buf) <;> rfl
  · rw [← SubMessage_bytes_eq]
    rfl
  · intro hd hh
    rw [← ReplyMessage_bytes_eq, MessagingReceiver.Dispatch_Request ctx svc arg x v rest hd, hh]

/-- The sample request dispatched to the counting service: the returned buffer is
the encoding of its reply, 37 bytes, the length the sizer reports. -/
theorem c14_two_pass_exact_witness :
    MessagingReceiver.Dispatch ⟨0⟩ countingMessaging ⟨ascii "Request", sampleRequest.bytes⟩ 0
        = (some (.ok ⟨ascii "Messaging.Request",
            mapSizeBytes 3 ++ strBytes (ascii "subject") ++ strBytes (ascii "orders.get")
            ++ strBytes (ascii "replyTo") ++ strBytes []
            ++ strBytes (ascii "body") ++ binBytes [byte 7]⟩), 1)
      ∧ (ReplyMessage.Encode ⟨ascii "orders.get", [], [byte 7]⟩ sizerWriter ⟨0⟩).2.Len = 37 :=
  ⟨(c14_two_pass_exact samplePub ⟨ascii "orders.get", [], [byte 7]⟩ sampleRequest sampleSub []
      recordingTransport ⟨0⟩ [] countingMessaging sampleRequest.bytes sampleRequest [] 0 1).2.2.2
      (by decide) (by decide), by decide⟩

/-! ## Decoding any well-formed map -/

theorem lastValue_nil (name : GoString) : lastValue [] name = none := rfl

theorem lastValue_cons (e : GoString × Value) (es : List (GoString × Value)) (name : GoString) :
    lastValue (e :: es) name
      = match lastValue es name with
        | some v => some v
        | none => if e.1 = name then some e.2 else none := by
  unfold lastValue
  rw [List.reverse_cons, List.find?_append]
  cases h : List.find? (fun e => decide (e.1 = name)) es.reverse with
  | some v => simp
  | none => by_cases hn : e.1 = name <;> simp [hn]

theorem DecodePubMessage_loop_entries (es : List (GoString × Value)) (val : PubMessage)
    (t : Decoder) (h : es.all (entryOk pubSchema) = true) :
    DecodePubMessage.loop es.length val (entriesBytes es ++ t)
      = .ok ({ Subject := ((lastValue es (ascii "subject")).map strOf).getD val.Subject,
               ReplyTo := ((lastValue es (ascii "replyTo")).map strOf).getD val.ReplyTo,
               Body := ((lastValue es (ascii "body")).map binOf).getD val.Body }, t) := by
  induction es generalizing val with
  | nil => simp [entriesBytes, lastValue_nil, DecodePubMessage.loop]
  | cons e es ih =>
    obtain ⟨name, v⟩ := e
    simp only [List.all_cons, Bool.and_eq_true] at h
    obtain ⟨he, hes⟩ := h
    simp only [entryOk, Bool.and_eq_true, decide_eq_true_eq] at he
    obtain ⟨⟨hn, hv⟩, hk⟩ := he
    simp only [List.length_cons, entriesBytes, List.append_assoc, lastValue_cons]
    have d12 : ascii "subject" ≠ ascii "replyTo" := by decide
    have d13 : ascii "subject" ≠ ascii "body" := by decide
    have d23 : ascii "replyTo" ≠ ascii "body" := by decide
    by_cases h1 : name = ascii "subject"
    · subst h1
      simp only [pubSchema, if_true] at hk
      cases v with
      | str s =>
        rw [Value.bytes, DecodePubMessage_loop_Subject _ _ _ hv, ih _ hes]
        cases lastValue es (ascii "subject") <;> cases lastValue es (ascii "replyTo") <;>
          cases lastValue es (ascii "body") <;> simp [strOf, d12, d13]
      | _ => simp [Value.hasKind] at hk
    · by_cases h2 : name = ascii "replyTo"
      · subst h2
        simp only [pubSchema, if_neg d12.symm, if_true] at hk
        cases v with
        | str s =>
          rw [Value.bytes, DecodePubMessage_loop_ReplyTo _ _ _ hv, ih _ hes]
          cases lastValue es (ascii "subject") <;> cases lastValue es (ascii "replyTo") <;>
            cases lastValue es (ascii "body") <;> simp [strOf, d12.symm, d23]
        | _ => simp [Value.hasKind] at hk
      · by_cases h3 : name = ascii "body"
        · subst h3
          simp only [pubSchema, if_neg d13.symm, if_neg d23.symm, if_true] at hk
          cases v with
          | bin s =>
            rw [Value.bytes, DecodePubMessage_loop_Body _ _ _ hv, ih _ hes]
            cases lastValue es (ascii "subject") <;> cases lastValue es (ascii "replyTo") <;>
              cases lastValue es (ascii "body") <;> simp [binOf, d13.symm, d23.symm]
          | _ => simp [Value.hasKind] at hk
        · rw [DecodePubMessage_loop_unknown _ _ _ _ hn hv h1 h2 h3, ih _ hes]
          cases lastValue es (ascii "subject") <;> cases lastValue es (ascii "replyTo") <;>
            cases lastValue es (ascii "body") <;> simp [h1, h2, h3]

theorem DecodePubMessage_mapBytes (es : List (GoString × Value)) (h : MapOk pubSchema es)
    (t : Decoder) :
    DecodePubMessage (NewDecoder (mapBytes es ++ t))
      = .ok ({ Subject := ((lastValue es (ascii "subject")).map strOf).getD [],
               ReplyTo := ((lastValue es (ascii "replyTo")).map strOf).getD [],
               Body := ((lastValue es (ascii "body")).map binOf).getD [] }, t) := by
  rw [NewDecoder, mapBytes, List.append_assoc, DecodePubMessage_map _ h.1,
    DecodePubMessage_loop_entries es _ t h.2]
  rfl

theorem DecodeReplyMessage_loop_entries (es : List (GoString × Value)) (val : ReplyMessage)
    (t : Decoder) (h : es.all (entryOk pubSchema) = true) :
    DecodeReplyMessage.loop es.length val (entriesBytes es ++ t)
      = .ok ({ Subject := ((lastValue es (ascii "subject")).map strOf).getD val.Subject,
               ReplyTo := ((lastValue es (ascii "replyTo")).map strOf).getD val.ReplyTo,
               Body := ((lastValue es (ascii "body")).map binOf).getD val.Body }, t) := by
  induction es generalizing val with
  | nil => simp [entriesBytes, lastValue_nil, DecodeReplyMessage.loop]
  | cons e es ih =>
    obtain ⟨name, v⟩ := e
    simp only [List.all_cons, Bool.and_eq_true] at h
    obtain ⟨he, hes⟩ := h
    simp only [entryOk, Bool.and_eq_true, decide_eq_true_eq] at he
    obtain ⟨⟨hn, hv⟩, hk⟩ := he
    simp only [List.length_cons, entriesBytes, List.append_assoc, lastValue_cons]
    have d12 : ascii "subject" ≠ ascii "replyTo" := by decide
    have d13 : ascii "subject" ≠ ascii "body" := by decide
    have d23 : ascii "replyTo" ≠ ascii "body" := by decide
    by_cases h1 : name = ascii "subject"
    · subst h1
      simp only [pubSchema, if_true] at hk
      cases v with
      | str s =>
        rw [Value.bytes, DecodeReplyMessage_loop_Subject _ _ _ hv, ih _ hes]
        cases lastValue es (ascii "subject") <;> cases lastValue es (ascii "replyTo") <;>
          cases lastValue es (ascii "body") <;> simp [strOf, d12, d13]
      | _ => simp [Value.hasKind] at hk
    · by_cases h2 : name = ascii "replyTo"
      · subst h2
        simp only [pubSchema, if_neg d12.symm, if_true] at hk
        cases v with
        | str s =>
          rw [Value.bytes, DecodeReplyMessage_loop_ReplyTo _ _ _ hv, ih _ hes]
          cases lastValue es (ascii "subject") <;> cases lastValue es (ascii "replyTo") <;>
            cases lastValue es (ascii "body") <;> simp [strOf, d12.symm, d23]
        | _ => simp [Value.hasKind] at hk
      · by_cases h3 : name = ascii "body"
        · subst h3
          simp only [pubSchema, if_neg d13.symm, if_neg d23.symm, if_true] at hk
          cases v with
          | bin s =>
            rw [Value.bytes, DecodeReplyMessage_loop_Body _ _ _ hv, ih _ hes]
            cases lastValue es (ascii "subject") <;> cases lastValue es (ascii "replyTo") <;>
              cases lastValue es (ascii "body") <;> simp [binOf, d13.symm, d23.symm]
          | _ => simp [Value.hasKind] at hk
        · rw [DecodeReplyMessage_loop_unknown _ _ _ _ hn hv h1 h2 h3, ih _ hes]
          cases lastValue es (ascii "subject") <;> cases lastValue es (ascii "replyTo") <;>
            cases lastValue es (ascii "body") <;> simp [h1, h2, h3]

theorem DecodeReplyMessage_mapBytes (es : List (GoString × Value)) (h : MapOk pubSchema es)
    (t : Decoder) :
    DecodeReplyMessage (NewDecoder (mapBytes es ++ t))
      = .ok ({ Subject := ((lastValue es (ascii "subject")).map strOf).getD [],
               ReplyTo := ((lastValue es (ascii "replyTo")).map strOf).getD [],
               Body := ((lastValue es (ascii "body")).map binOf).getD [] }, t) := by
  rw [NewDecoder, mapBytes, List.append_assoc, DecodeReplyMessage_map _ h.1,
    DecodeReplyMessage_loop_entries es _ t h.2]
  rfl

theorem DecodeSubMessage_loop_entries (es : List (GoString × Value)) (val : SubMessage)
    (t : Decoder) (h : es.all (entryOk pubSchema) = true) :
    DecodeSubMessage.loop es.length val (entriesBytes es ++ t)
      = .ok ({ Subject := ((lastValue es (ascii "subject")).map strOf).getD val.Subject,
               ReplyTo := ((lastValue es (ascii "replyTo")).map strOf).getD val.ReplyTo,
               Body := ((lastValue es (ascii "body")).map binOf).getD val.Body }, t) := by
  induction es generalizing val with
  | nil => simp [entriesBytes, lastValue_nil, DecodeSubMessage.loop]
  | cons e es ih =>
    obtain ⟨name, v⟩ := e
    simp only [List.all_cons, Bool.and_eq_true] at h
    obtain ⟨he, hes⟩ := h
    simp only [entryOk, Bool.and_eq_true, decide_eq_true_eq] at he
    obtain ⟨⟨hn, hv⟩, hk⟩ := he
    simp only [List.length_cons, entriesBytes, List.append_assoc, lastValue_cons]
    have d12 : ascii "subject" ≠ ascii "replyTo" := by decide
    have d13 : ascii "subject" ≠ ascii "body" := by decide
    have d23 : ascii "replyTo" ≠ ascii "body" := by decide
    by_cases h1 : name = ascii "subject"
    · subst h1
      simp only [pubSchema, if_true] at hk
      cases v with
      | str s =>
        rw [Value.bytes, DecodeSubMessage_loop_Subject _ _ _ hv, ih _ hes]
        cases lastValue es (ascii "subject") <;> cases lastValue es (ascii "replyTo") <;>
          cases lastValue es (ascii "body") <;> simp [strOf, d12, d13]
      | _ => simp [Value.hasKind] at hk
    · by_cases h2 : name = ascii "replyTo"
      · subst h2
        simp only [pubSchema, if_neg d12.symm, if_true] at hk
        cases v with
        | str s =>
          rw [Value.bytes, DecodeSubMessage_loop_ReplyTo _ _ _ hv, ih _ hes]
          cases lastValue es (ascii "subject") <;> cases lastValue es (ascii "replyTo") <;>
            cases lastValue es (ascii "body") <;> simp [strOf, d12.symm, d23]
        | _ => simp [Value.hasKind] at hk
      · by_cases h3 : name = ascii "body"
        · subst h3
          simp only [pubSchema, if_neg d13.symm, if_neg d23.symm, if_true] at hk
          cases v with
          | bin s =>
            rw [Value.bytes, DecodeSubMessage_loop_Body _ _ _ hv, ih _ hes]
            cases lastValue es (ascii "subject") <;> cases lastValue es (ascii "replyTo") <;>
              cases lastValue es (ascii "body") <;> simp [binOf, d13.symm, d23.symm]
          | _ => simp [Value.hasKind] at hk
        · rw [DecodeSubMessage_loop_unknown _ _ _ _ hn hv h1 h2 h3, ih _ hes]
          cases lastValue es (ascii "subject") <;> cases lastValue es (ascii "replyTo") <;>
            cases lastValue es (ascii "body") <;> simp [h1, h2, h3]

theorem DecodeSubMessage_mapBytes (es : List (GoString × Value)) (h : MapOk pubSchema es)
    (t : Decoder) :
    DecodeSubMessage (NewDecoder (mapBytes es ++ t))
      = .ok ({ Subject := ((lastValue es (ascii "subject")).map strOf).getD [],
               ReplyTo := ((lastValue es (ascii "replyTo")).map strOf).getD [],
               Body := ((lastValue es (ascii "body")).map binOf).getD [] }, t) := by
  rw [NewDecoder, mapBytes, List.append_assoc, DecodeSubMessage_map _ h.1,
    DecodeSubMessage_loop_entries es _ t h.2]
  rfl

theorem DecodeRequestMessage_loop_entries (es : List (GoString × Value)) (val : RequestMessage)
    (t : Decoder) (h : es.all (entryOk requestSchema) = true) :
    DecodeRequestMessage.loop es.length val (entriesBytes es ++ t)
      = .ok ({ Subject := ((lastValue es (ascii "subject")).map strOf).getD val.Subject,
               Body := ((lastValue es (ascii "body")).map binOf).getD val.Body,
               TimeoutMs := ((lastValue es (ascii "timeoutMs")).map u32Of).getD val.TimeoutMs }, t) := by
  induction es generalizing val with
  | nil => simp [entriesBytes, lastValue_nil, DecodeRequestMessage.loop]
  | cons e es ih =>
    obtain ⟨name, v⟩ := e
    simp only [List.all_cons, Bool.and_eq_true] at h
    obtain ⟨he, hes⟩ := h
    simp only [entryOk, Bool.and_eq_true, decide_eq_true_eq] at he
    obtain ⟨⟨hn, hv⟩, hk⟩ := he
    simp only [List.length_cons, entriesBytes, List.append_assoc, lastValue_cons]
    have d12 : ascii "subject" ≠ ascii "body" := by decide
    have d13 : ascii "subject" ≠ ascii "timeoutMs" := by decide
    have d23 : ascii "body" ≠ ascii "timeoutMs" := by decide
    by_cases h1 : name = ascii "subject"
    · subst h1
      simp only [requestSchema, if_true] at hk
      cases v with
      | str s =>
        rw [Value.bytes, DecodeRequestMessage_loop_Subject _ _ _ hv, ih _ hes]
        cases lastValue es (ascii "subject") <;> cases lastValue es (ascii "body") <;>
          cases lastValue es (ascii "timeoutMs") <;> simp [strOf, d12, d13]
      | _ => simp [Value.hasKind] at hk
    · by_cases h2 : name = ascii "body"
      · subst h2
        simp only [requestSchema, if_neg d12.symm, if_true] at hk
        cases v with
        | bin s =>
          rw [Value.bytes, DecodeRequestMessage_loop_Body _ _ _ hv, ih _ hes]
          cases lastValue es (ascii "subject") <;> cases lastValue es (ascii "body") <;>
            cases lastValue es (ascii "timeoutMs") <;> simp [binOf, d12.symm, d23]
        | _ => simp [Value.hasKind] at hk
      · by_cases h3 : name = ascii "timeoutMs"
        · subst h3
          simp only [requestSchema, if_neg d13.symm, if_neg d23.symm, if_true] at hk
          cases v with
          | uint32 s =>
            rw [Value.bytes, DecodeRequestMessage_loop_TimeoutMs _ _ _ hv, ih _ hes]
            cases lastValue es (ascii "subject") <;> cases lastValue es (ascii "body") <;>
              cases lastValue es (ascii "timeoutMs") <;> simp [u32Of, d13.symm, d23.symm]
          | _ => simp [Value.hasKind] at hk
        · rw [DecodeRequestMessage_loop_unknown _ _ _ _ hn hv h1 h2 h3, ih _ hes]
          cases lastValue es (ascii "subject") <;> cases lastValue es (ascii "body") <;>
            cases lastValue es (ascii "timeoutMs") <;> simp [h1, h2, h3]

theorem DecodeRequestMessage_mapBytes (es : List (GoString × Value)) (h : MapOk requestSchema es)
    (t : Decoder) :
    DecodeRequestMessage (NewDecoder (mapBytes es ++ t))
      = .ok ({ Subject := ((lastValue es (ascii "subject")).map strOf).getD [],
               Body := ((lastValue es (ascii "body")).map binOf).getD [],
               TimeoutMs := ((lastValue es (ascii "timeoutMs")).map u32Of).getD 0 }, t) := by
  rw [NewDecoder, mapBytes, List.append_assoc, DecodeRequestMessage_map _ h.1,
    DecodeRequestMessage_loop_entries es _ t h.2]
  rfl

/-! ## Decoding the fields in any order -/

theorem perm_three {α : Type} (a b c : α) (es : List α) (h : es.Perm [a, b, c]) :
    es = [a, b, c] ∨ es = [b, a, c] ∨ es = [c, b, a] ∨ es = [b, c, a] ∨ es = [c, a, b]
      ∨ es = [a, c, b] := by
  have hm := List.mem_permutations.2 h
  simpa [List.permutations, List.permutationsAux_cons, List.permutationsAux_nil,
    List.permutationsAux2] using hm

theorem DecodePubMessage_any_order (r : PubMessage) (h : r.Valid) (es : List (GoString × Value))
    (hp : es.Perm [(ascii "subject", Value.str r.Subject), (ascii "replyTo", Value.str r.ReplyTo),
      (ascii "body", Value.bin r.Body)]) :
    DecodePubMessage (NewDecoder (mapBytes es)) = .ok (r, []) := by
  obtain ⟨h1, h2, h3⟩ := h
  rcases perm_three _ _ _ es hp with e | e | e | e | e | e <;>
  · subst e
    simp only [NewDecoder, mapBytes, entriesBytes, Value.bytes, List.length_cons,
      List.length_nil]
    rw [DecodePubMessage_map _ (by decide)]
    iterate 3
      first
        | rw [DecodePubMessage_loop_Subject _ _ _ h1]
        | rw [DecodePubMessage_loop_ReplyTo _ _ _ h2]
        | rw [DecodePubMessage_loop_Body _ _ _ h3]
    rw [DecodePubMessage.loop]

theorem DecodeReplyMessage_any_order (r : ReplyMessage) (h : r.Valid) (es : List (GoString × Value))
    (hp : es.Perm [(ascii "subject", Value.str r.Subject), (ascii "replyTo", Value.str r.ReplyTo),
      (ascii "body", Value.bin r.Body)]) :
    DecodeReplyMessage (NewDecoder (mapBytes es)) = .ok (r, []) := by
  obtain ⟨h1, h2, h3⟩ := h
  rcases perm_three _ _ _ es hp with e | e | e | e | e | e <;>
  · subst e
    simp only [NewDecoder, mapBytes, entriesBytes, Value.bytes, List.length_cons,
      List.length_nil]
    rw [DecodeReplyMessage_map _ (by decide)]
    iterate 3
      first
        | rw [DecodeReplyMessage_loop_Subject _ _ _ h1]
        | rw [DecodeReplyMessage_loop_ReplyTo _ _ _ h2]
        | rw [DecodeReplyMessage_loop_Body _ _ _ h3]
    rw [DecodeReplyMessage.loop]

theorem DecodeSubMessage_any_order (r : SubMessage) (h : r.Valid) (es : List (GoString × Value))
    (hp : es.Perm [(ascii "subject", Value.str r.Subject), (ascii "replyTo", Value.str r.ReplyTo),
      (ascii "body", Value.bin r.Body)]) :
    DecodeSubMessage (NewDecoder (mapBytes es)) = .ok (r, []) := by
  obtain ⟨h1, h2, h3⟩ := h
  rcases perm_three _ _ _ es hp with e | e | e | e | e | e <;>
  · subst e
    simp only [NewDecoder, mapBytes, entriesBytes, Value.bytes, List.length_cons,
      List.length_nil]
    rw [DecodeSubMessage_map _ (by decide)]
    iterate 3
      first
        | rw [DecodeSubMessage_loop_Subject _ _ _ h1]
        | rw [DecodeSubMessage_loop_ReplyTo _ _ _ h2]
        | rw [DecodeSubMessage_loop_Body _ _ _ h3]
    rw [DecodeSubMessage.loop]

theorem DecodeRequestMessage_any_order (r : RequestMessage) (h : r.Valid) (es : List (GoString × Value))
    (hp : es.Perm [(ascii "subject", Value.str r.Subject), (ascii "body", Value.bin r.Body),
      (ascii "timeoutMs", Value.uint32 r.TimeoutMs)]) :
    DecodeRequestMessage (NewDecoder (mapBytes es)) = .ok (r, []) := by
  obtain ⟨h1, h2, h3⟩ := h
  rcases perm_three _ _ _ es hp with e | e | e | e | e | e <;>
  · subst e
    simp only [NewDecoder, mapBytes, entriesBytes, Value.bytes, List.length_cons,
      List.length_nil]
    rw [DecodeRequestMessage_map _ (by decide)]
    iterate 3
      first
        | rw [DecodeRequestMessage_loop_Subject _ _ _ h1]
        | rw [DecodeRequestMessage_loop_Body _ _ _ h2]
        | rw [DecodeRequestMessage_loop_TimeoutMs _ _ _ h3]
    rw [DecodeRequestMessage.loop]

/-! ## Order, missing and repeated fields, trailing bytes -/

theorem lastValue_none (l : List (GoString × Value)) (name : GoString)
    (h : ∀ e ∈ l, e.1 ≠ name) : lastValue l name = none := by
  induction l with
  | nil => rfl
  | cons e l ih =>
    rw [lastValue_cons, ih (fun x hx => h x (List.mem_cons_of_mem _ hx)),
      if_neg (h e (List.mem_cons_self _ _))]

theorem lastValue_last (l1 l2 : List (GoString × Value)) (name : GoString) (v : Value)
    (h : ∀ e ∈ l2, e.1 ≠ name) : lastValue (l1 ++ (name, v) :: l2) name = some v := by
  induction l1 with
  | nil => rw [List.nil_append, lastValue_cons, lastValue_none l2 name h, if_pos rfl]
  | cons e l1 ih => rw [List.cons_append, lastValue_cons, ih]

/-- C16 (decoding is independent of field order): for each of the four Decode
functions and every valid record, decoding a 3-entry map that carries the
record's three name/value pairs in any order (any permutation of the schema's
order, six in all) succeeds and returns the record. -/
theorem c16_field_order_independent (p : PubMessage) (q : ReplyMessage) (r : RequestMessage)
    (s : SubMessage) (es : List (GoString × Value))
    (hp : p.Valid) (hq : q.Valid) (hr : r.Valid) (hs : s.Valid) :
    (es.Perm [(ascii "subject", Value.str p.Subject), (ascii "replyTo", Value.str p.ReplyTo),
          (ascii "body", Value.bin p.Body)] →
        DecodePubMessage (NewDecoder (mapBytes es)) = .ok (p, []))
      ∧ (es.Perm [(ascii "subject", Value.str q.Subject), (ascii "replyTo", Value.str q.ReplyTo),
          (ascii "body", Value.bin q.Body)] →
        DecodeReplyMessage (NewDecoder (mapBytes es)) = .ok (q, []))
      ∧ (es.Perm [(ascii "subject", Value.str r.Subject), (ascii "body", Value.bin r.Body),
          (ascii "timeoutMs", Value.uint32 r.TimeoutMs)] →
        DecodeRequestMessage (NewDecoder (mapBytes es)) = .ok (r, []))
      ∧ (es.Perm [(ascii "subject", Value.str s.Subject), (ascii "replyTo", Value.str s.ReplyTo),
          (ascii "body", Value.bin s.Body)] →
        DecodeSubMessage (NewDecoder (mapBytes es)) = .ok (s, [])) :=
  ⟨DecodePubMessage_any_order p hp es, DecodeReplyMessage_any_order q hq es,
    DecodeRequestMessage_any_order r hr es, DecodeSubMessage_any_order s hs es⟩

/-- The sample publish record written body first, and the sample request written
timeout first. -/
theorem c16_field_order_independent_witness :
    DecodePubMessage (NewDecoder (mapBytes [(ascii "body", Value.bin [byte 1, byte 2]),
        (ascii "subject", Value.str (ascii "orders.new")), (ascii "replyTo", Value.str [])]))
        = .ok (samplePub, [])
      ∧ DecodeRequestMessage (NewDecoder (mapBytes [(ascii "timeoutMs", Value.uint32 1500),
        (ascii "body", Value.bin [byte 7]), (ascii "subject", Value.str (ascii "orders.get"))]))
        = .ok (sampleRequest, []) :=
  ⟨(c16_field_order_independent samplePub sampleReply sampleRequest sampleSub
      [(ascii "body", Value.bin [byte 1, byte 2]),
        (ascii "subject", Value.str (ascii "orders.new")), (ascii "replyTo", Value.str [])]
      (by decide) (by decide) (by decide) (by decide)).1
      ((List.Perm.swap _ _ _).trans (List.Perm.cons _ (List.Perm.swap _ _ _))),
    (c16_field_order_independent samplePub sampleReply sampleRequest sampleSub
      [(ascii "timeoutMs", Value.uint32 1500), (ascii "body", Value.bin [byte 7]),
        (ascii "subject", Value.str (ascii "orders.get"))]
      (by decide) (by decide) (by decide) (by decide)).2.2.1
      (((List.Perm.cons _ (List.Perm.swap _ _ _)).trans (List.Perm.swap _ _ _)).trans
        (List.Perm.cons _ (List.Perm.swap _ _ _)))⟩

/-- C17 (missing and repeated fields): for each of the four Decode functions,
decoding a well-formed map succeeds, and every field gets the value of the last
entry that carries its name, or its zero value when no entry does; so an empty
map decodes to the same zero-value record as the nil marker.  `lastValue` is
`none` when no entry carries the name, and the value of an entry that no later
entry with the same name follows. -/
theorem c17_missing_and_repeated_fields (es rs : List (GoString × Value))
    (hes : MapOk pubSchema es) (hrs : MapOk requestSchema rs) :
    (DecodePubMessage (NewDecoder (mapBytes es))
        = .ok ({ Subject := ((lastValue es (ascii "subject")).map strOf).getD [],
                 ReplyTo := ((lastValue es (ascii "replyTo")).map strOf).getD [],
                 Body := ((lastValue es (ascii "body")).map binOf).getD [] }, [])
      ∧ DecodeReplyMessage (NewDecoder (mapBytes es))
        = .ok ({ Subject := ((lastValue es (ascii "subject")).map strOf).getD [],
                 ReplyTo := ((lastValue es (ascii "replyTo")).map strOf).getD [],
                 Body := ((lastValue es (ascii "body")).map binOf).getD [] }, [])
      ∧ DecodeSubMessage (NewDecoder (mapBytes es))
        = .ok ({ Subject := ((lastValue es (ascii "subject")).map strOf).getD [],
                 ReplyTo := ((lastValue es (ascii "replyTo")).map strOf).getD [],
                 Body := ((lastValue es (ascii "body")).map binOf).getD [] }, [])
      ∧ DecodeRequestMessage (NewDecoder (mapBytes rs))
        = .ok ({ Subject := ((lastValue rs (ascii "subject")).map strOf).getD [],
                 Body := ((lastValue rs (ascii "body")).map binOf).getD [],
                 TimeoutMs := ((lastValue rs (ascii "timeoutMs")).map u32Of).getD 0 }, []))
      ∧ (DecodePubMessage (NewDecoder (mapBytes [])) = DecodePubMessage (NewDecoder nilBytes)
        ∧ DecodeReplyMessage (NewDecoder (mapBytes []))
          = DecodeReplyMessage (NewDecoder nilBytes)
        ∧ DecodeSubMessage (NewDecoder (mapBytes [])) = DecodeSubMessage (NewDecoder nilBytes)
        ∧ DecodeRequestMessage (NewDecoder (mapBytes []))
          = DecodeRequestMessage (NewDecoder nilBytes)
        ∧ DecodePubMessage (NewDecoder (mapBytes []))
          = .ok ({ Subject := [], ReplyTo := [], Body := [] }, [])
        ∧ DecodeRequestMessage (NewDecoder (mapBytes []))
          = .ok ({ Subject := [], Body := [], TimeoutMs := 0 }, []))
      ∧ (∀ (l : List (GoString × Value)) (name : GoString),
          (∀ e ∈ l, e.1 ≠ name) → lastValue l name = none)
      ∧ (∀ (l1 l2 : List (GoString × Value)) (name : GoString) (v : Value),
          (∀ e ∈ l2, e.1 ≠ name) → lastValue (l1 ++ (name, v) :: l2) name = some v) := by
  have h1 := DecodePubMessage_mapBytes es hes []
  have h2 := DecodeReplyMessage_mapBytes es hes []
  have h3 := DecodeSubMessage_mapBytes es hes []
  have h4 := DecodeRequestMessage_mapBytes rs hrs []
  rw [List.append_nil] at h1 h2 h3 h4
  exact ⟨⟨h1, h2, h3, h4⟩, ⟨rfl, rfl, rfl, rfl, rfl, rfl⟩, lastValue_none, lastValue_last⟩

/-- A map with "body" twice and an unknown field, and no "subject" or "replyTo":
the last body is returned, the other fields are empty; a request map with
"timeoutMs" twice returns the last one. -/
theorem c17_missing_and_repeated_fields_witness :
    DecodePubMessage (NewDecoder (mapBytes [(ascii "body", Value.bin [byte 1]),
        (ascii "x", Value.nil), (ascii "body", Value.bin [byte 2, byte 3])]))
        = .ok ({ Subject := [], ReplyTo := [], Body := [byte 2, byte 3] }, [])
      ∧ DecodeRequestMessage (NewDecoder (mapBytes [(ascii "timeoutMs", Value.uint32 5),
        (ascii "timeoutMs", Value.uint32 9)]))
        = .ok ({ Subject := [], Body := [], TimeoutMs := 9 }, []) :=
  have h := c17_missing_and_repeated_fields
    [(ascii "body", Value.bin [byte 1]), (ascii "x", Value.nil),
      (ascii "body", Value.bin [byte 2, byte 3])]
    [(ascii "timeoutMs", Value.uint32 5), (ascii "timeoutMs", Value.uint32 9)]
    (by decide) (by decide)
  ⟨h.1.1, h.1.2.2.2⟩

/-- C18 (trailing bytes are ignored): for each of the four Decode functions,
every valid record and every byte sequence t, decoding the record's encoding
followed by t succeeds and returns the record; the decoder stops after the
declared number of map entries and leaves t unread, and nothing checks that the
input is consumed: Dispatch on such an argument behaves as on the encoding alone. -/
theorem c18_trailing_bytes_ignored {σ : Type} (p : PubMessage) (q : ReplyMessage)
    (r : RequestMessage) (s : SubMessage) (t : List Byte) (ctx : Context)
    (sub : MessageSubscriber σ) (x : σ)
    (hp : p.Valid) (hq : q.Valid) (hr : r.Valid) (hs : s.Valid) :
    DecodePubMessage (NewDecoder (p.bytes ++ t)) = .ok (p, t)
      ∧ DecodeReplyMessage (NewDecoder (q.bytes ++ t)) = .ok (q, t)
      ∧ DecodeRequestMessage (NewDecoder (r.bytes ++ t)) = .ok (r, t)
      ∧ DecodeSubMessage (NewDecoder (s.bytes ++ t)) = .ok (s, t)
      ∧ MessageSubscriberReceiver.Dispatch ctx sub ⟨ascii "HandleMessage", s.bytes ++ t⟩ x
        = MessageSubscriberReceiver.Dispatch ctx sub ⟨ascii "HandleMessage", s.bytes⟩ x := by
  refine ⟨DecodePubMessage_bytes_append p hp t, DecodeReplyMessage_bytes_append q hq t,
    DecodeRequestMessage_bytes_append r hr t, DecodeSubMessage_bytes_append s hs t, ?_⟩
  rw [MessageSubscriberReceiver.Dispatch_HandleMessage ctx sub _ x s t
      (DecodeSubMessage_bytes_append s hs t),
    MessageSubscriberReceiver.Dispatch_HandleMessage ctx sub _ x s []
      (DecodeSubMessage_bytes s hs)]

/-- The sample records followed by three stray bytes. -/
theorem c18_trailing_bytes_ignored_witness :
    DecodePubMessage (NewDecoder (samplePub.bytes ++ [byte 0xff, byte 0, byte 0xc1]))
        = .ok (samplePub, [byte 0xff, byte 0, byte 0xc1])
      ∧ DecodeRequestMessage (NewDecoder (sampleRequest.bytes ++ [byte 0xff, byte 0, byte 0xc1]))
        = .ok (sampleRequest, [byte 0xff, byte 0, byte 0xc1])
      ∧ MessageSubscriberReceiver.Dispatch ⟨0⟩ countingSubscriber
          ⟨ascii "HandleMessage", sampleSub.bytes ++ [byte 0xff, byte 0, byte 0xc1]⟩ 0
        = MessageSubscriberReceiver.Dispatch ⟨0⟩ countingSubscriber
          ⟨ascii "HandleMessage", sampleSub.bytes⟩ 0 :=
  have h := c18_trailing_bytes_ignored samplePub sampleReply sampleRequest sampleSub
    [byte 0xff, byte 0, byte 0xc1] ⟨0⟩ countingSubscriber 0
    (by decide) (by decide) (by decide) (by decide)
  ⟨h.1, h.2.2.1, h.2.2.2.2⟩

end messaging
